import Mathlib

/-!
# getdevcomm: classification rule chain and community routes

A shallow embedding of

* `getTechStack` from `backend/scripts/seedCommunities.js`, the ordered keyword
  rule chain that assigns a tech-stack label to a seed record;
* the routes of `backend/routes/communities.js`: the listing `GET /api/communities`,
  the detail `GET /api/communities/:id`, the creation `POST /api/communities` and
  the featured list `GET /api/communities/featured/list`, on a store that is a list
  of documents in stored order, validated against the schema of
  `backend/models/Community.js`;
* the parameters that `fetchMatchedCommunities` of `frontend/src/pages/MatchMaker.jsx`
  sends to the listing route;
* the `origin` callback of the CORS configuration in `backend/server.js`.

The regular-expression engine of the store, its reading of constraints that are
arrays or operator objects, and the URL parser are not part of the repository; they
are parameters of the routes that use them.

JavaScript strings are modelled by `String`.  `toLowerCase` folds the ASCII letters
`A`..`Z` and leaves every other character unchanged; every keyword of the rule
chain is ASCII.
-/

namespace GetDevComm

/-! ## String primitives -/

/-- Case folding of a string, `String.prototype.toLowerCase` on ASCII letters. -/
def toLowerCase (s : String) : String := ⟨s.data.map Char.toLower⟩

/-- Whether `sub` occurs in `l` as a contiguous block. -/
def includesList : List Char → List Char → Bool
  | [], sub => sub.isEmpty
  | c :: cs, sub => sub.isPrefixOf (c :: cs) || includesList cs sub

/-- Substring test, `String.prototype.includes`. -/
def includes (s sub : String) : Bool := includesList s.data sub.data

/-- Code points that `String.prototype.trim` strips: ECMAScript white space and
line terminators. -/
def isWhiteSpace (c : Char) : Bool :=
  let n := c.toNat
  n = 0x09 || n = 0x0A || n = 0x0B || n = 0x0C || n = 0x0D || n = 0x20 || n = 0xA0 ||
  n = 0x1680 || (0x2000 ≤ n && n ≤ 0x200A) || n = 0x2028 || n = 0x2029 || n = 0x202F ||
  n = 0x205F || n = 0x3000 || n = 0xFEFF

/-- Removal of leading and trailing white space, `String.prototype.trim`. -/
def trim (s : String) : String :=
  ⟨((s.data.dropWhile isWhiteSpace).reverse.dropWhile isWhiteSpace).reverse⟩

/-- Concatenation of the elements with a separator, `Array.prototype.join`. -/
def join (sep : String) (xs : List String) : String := sep.intercalate xs

/-! ## Seed records -/

/-- A seed record as written in the `communities` literal of the seeding script.
Every property of the object may be absent. -/
structure SeedCommunity where
  title : Option String := none
  description : Option String := none
  fullDescription : Option String := none
  tech_stack : Option String := none
  platform : Option String := none
  location_mode : Option String := none
  tags : Option (List String) := none
  community_page : Option String := none
  joining_link : Option String := none
  logo_url : Option String := none
  member_count : Option Int := none
  activity_level : Option String := none
  rules : Option String := none
  deriving DecidableEq, Repr

/-- The expression `x || ""` on an optional string: absent and empty both give `""`. -/
def orEmpty (x : Option String) : String := x.getD ""

/-- The lowercased title, `(community.title || "").toLowerCase()`. -/
def titleOf (community : SeedCommunity) : String := toLowerCase (orEmpty community.title)

/-- The lowercased tags, `(community.tags || []).map(t => t.toLowerCase())`. -/
def tagsOf (community : SeedCommunity) : List String :=
  (community.tags.getD []).map toLowerCase

/-- The lowercased description. -/
def descOf (community : SeedCommunity) : String := toLowerCase (orEmpty community.description)

/-- The lowercased full description. -/
def fullDescOf (community : SeedCommunity) : String :=
  toLowerCase (orEmpty community.fullDescription)

/-- The search blob: title, description, full description and the joined tags,
separated by single spaces. -/
def combinedOf (community : SeedCommunity) : String :=
  titleOf community ++ " " ++ descOf community ++ " " ++ fullDescOf community ++ " " ++
    join " " (tagsOf community)

/-! ## The conditions of the rule chain, one per `if` of `getTechStack` -/

/-- Condition of the React branch. -/
def isReact (title : String) (tags : List String) (combined : String) : Bool :=
  includes title "react" ||
  includes title "reactiflux" ||
  includes title "next.js" ||
  includes title "nextjs" ||
  includes title "remix" ||
  includes title "react native" ||
  tags.contains "react" ||
  tags.contains "next.js" ||
  tags.contains "nextjs" ||
  includes combined "react.js" ||
  includes combined "reactjs" ||
  includes combined "react framework" ||
  includes combined "jsx"

/-- Condition of the Node.js branch. -/
def isNode (title : String) (tags : List String) (combined : String) : Bool :=
  includes title "node" ||
  includes title "nodeiflux" ||
  includes title "express.js" ||
  includes title "expressjs" ||
  tags.contains "node.js" ||
  tags.contains "nodejs" ||
  tags.contains "node" ||
  tags.contains "express" ||
  includes combined "node.js" ||
  includes combined "nodejs" ||
  includes combined "express.js" ||
  includes combined "backend js" ||
  includes combined "server-side js"

/-- Condition of the Python branch. -/
def isPython (title : String) (tags : List String) (combined : String) : Bool :=
  includes title "python" ||
  includes title "pyslackers" ||
  includes title "real python" ||
  includes title "r/python" ||
  includes title "python cpython" ||
  tags.contains "python" ||
  includes combined "python programming" ||
  includes combined "pythonista"

/-- Condition of the Django check nested in the Python branch. -/
def isDjangoInPython (title : String) (tags : List String) (combined : String) : Bool :=
  includes title "django" ||
  tags.contains "django" ||
  includes combined "django framework"

/-- Condition of the Flask check nested in the Python branch. -/
def isFlaskInPython (title : String) (tags : List String) (combined : String) : Bool :=
  includes title "flask" ||
  tags.contains "flask" ||
  includes combined "flask framework"

/-- Condition of the standalone Django branch. -/
def isDjango (title : String) (tags : List String) (combined : String) : Bool :=
  includes title "django" ||
  tags.contains "django" ||
  includes combined "django framework" ||
  includes combined "django web"

/-- Condition of the standalone Flask branch. -/
def isFlask (title : String) (tags : List String) (combined : String) : Bool :=
  includes title "flask" ||
  tags.contains "flask" ||
  includes combined "flask framework" ||
  includes combined "flask web"

/-- Condition of the Machine Learning branch. -/
def isMachineLearning (title : String) (tags : List String) (combined : String) : Bool :=
  includes title "machine learning" ||
  includes title "ml" ||
  includes title "ai" ||
  includes title "artificial intelligence" ||
  includes title "tensorflow" ||
  includes title "pytorch" ||
  includes title "deep learning" ||
  includes title "neural" ||
  includes title "kaggle" ||
  includes title "fast.ai" ||
  includes title "learnmachinelearning" ||
  includes title "machinelearning" ||
  tags.contains "machine learning" ||
  tags.contains "ml" ||
  tags.contains "ai" ||
  tags.contains "tensorflow" ||
  tags.contains "pytorch" ||
  tags.contains "deep learning" ||
  includes combined "neural network" ||
  includes combined "data science" ||
  includes combined "data scientist" ||
  includes combined "ml model" ||
  includes combined "ai model"

/-- Condition of the Vue branch. -/
def isVue (title : String) (tags : List String) (combined : String) : Bool :=
  includes title "vue" ||
  includes title "nuxt" ||
  tags.contains "vue" ||
  tags.contains "vue.js" ||
  tags.contains "vuejs" ||
  tags.contains "nuxt" ||
  includes combined "vue.js" ||
  includes combined "vuejs" ||
  includes combined "nuxt.js"

/-- Condition of the Angular branch. -/
def isAngular (title : String) (tags : List String) (combined : String) : Bool :=
  includes title "angular" ||
  tags.contains "angular" ||
  tags.contains "angular.js" ||
  includes combined "angular.js" ||
  includes combined "angular framework" ||
  includes combined "typescript framework"

/-- The eight labels of `popularStacks`, in the order of the source. -/
def popularStacks : List String :=
  ["React", "Node.js", "Python", "Machine Learning", "Vue", "Angular", "Django", "Flask"]

/-- The expression `original || "General"`. -/
def orGeneral (original : String) : String := if original = "" then "General" else original

/-- The tech-stack label of a seed record, `getTechStack`. -/
def getTechStack (community : SeedCommunity) : String :=
  let title := titleOf community
  let tags := tagsOf community
  let combined := combinedOf community
  if isReact title tags combined then "React"
  else if isNode title tags combined then "Node.js"
  else if isPython title tags combined then
    if isDjangoInPython title tags combined then "Django"
    else if isFlaskInPython title tags combined then "Flask"
    else "Python"
  else if isDjango title tags combined then "Django"
  else if isFlask title tags combined then "Flask"
  else if isMachineLearning title tags combined then "Machine Learning"
  else if isVue title tags combined then "Vue"
  else if isAngular title tags combined then "Angular"
  else
    let original := trim (orEmpty community.tech_stack)
    if popularStacks.contains original then original
    else orGeneral original

/-! ## The rule chain as an explicit ordered list of (predicate, label) pairs -/

/-- One entry of the ordered rule list: a label and the predicate that selects it. -/
structure Rule where
  label : String
  holds : SeedCommunity → Bool

/-- Lifts a branch condition to a predicate on seed records. -/
def onRecord (p : String → List String → String → Bool) (c : SeedCommunity) : Bool :=
  p (titleOf c) (tagsOf c) (combinedOf c)

/-- The ordered rule list of the specification: React, Node.js, Python with the Django
sub-check, Python with the Flask sub-check, Python, Django, Flask, Machine Learning,
Vue, Angular. -/
def ruleList : List Rule :=
  [ ⟨"React", onRecord isReact⟩,
    ⟨"Node.js", onRecord isNode⟩,
    ⟨"Django", fun c => onRecord isPython c && onRecord isDjangoInPython c⟩,
    ⟨"Flask", fun c => onRecord isPython c && onRecord isFlaskInPython c⟩,
    ⟨"Python", onRecord isPython⟩,
    ⟨"Django", onRecord isDjango⟩,
    ⟨"Flask", onRecord isFlask⟩,
    ⟨"Machine Learning", onRecord isMachineLearning⟩,
    ⟨"Vue", onRecord isVue⟩,
    ⟨"Angular", onRecord isAngular⟩ ]

/-- The fallback of the specification: the trimmed pre-existing value when it is one
of the eight labels or non-empty, else `"General"`. -/
def fallbackLabel (c : SeedCommunity) : String :=
  let original := trim (orEmpty c.tech_stack)
  if popularStacks.contains original then original else orGeneral original

/-- First-match evaluation of a rule list, with a default when no rule holds. -/
def firstMatch (rules : List Rule) (c : SeedCommunity) (dflt : String) : String :=
  match rules.find? (fun r => r.holds c) with
  | some r => r.label
  | none => dflt

/-- The classifier of the specification: first match over `ruleList`, then the
fallback. -/
def classifyByRules (c : SeedCommunity) : String := firstMatch ruleList c (fallbackLabel c)

/-- No keyword rule of the chain matches the record. -/
def noRuleMatches (c : SeedCommunity) : Bool :=
  !(onRecord isReact c || onRecord isNode c || onRecord isPython c || onRecord isDjango c ||
    onRecord isFlask c || onRecord isMachineLearning c || onRecord isVue c ||
    onRecord isAngular c)

/-- The record mentions `"django"` in its title, description, full description or
one of its tags, in any letter case. -/
def mentionsDjango (c : SeedCommunity) : Bool :=
  includes (titleOf c) "django" || includes (descOf c) "django" ||
  includes (fullDescOf c) "django" || (tagsOf c).any (fun t => includes t "django")

/-! ## Letter-case variants -/

/-- Two characters are equal or are the upper-case and lower-case form of one ASCII
letter (`A`..`Z` are the code points 65..90, the lower-case forms are 32 above). -/
def sameLetter (a b : Char) : Bool :=
  a = b ||
  (65 ≤ a.toNat && a.toNat ≤ 90 && b.toNat = a.toNat + 32) ||
  (65 ≤ b.toNat && b.toNat ≤ 90 && a.toNat = b.toNat + 32)

/-- Two character lists of the same length that agree position by position up to the
case of ASCII letters. -/
def caseVariantList : List Char → List Char → Bool
  | [], [] => true
  | a :: as, b :: bs => sameLetter a b && caseVariantList as bs
  | _, _ => false

/-- Two strings that differ only in the case of ASCII letters. -/
def caseVariant (s t : String) : Bool := caseVariantList s.data t.data

/-- Two optional strings, both absent or both present and case variants. -/
def caseVariantOpt : Option String → Option String → Bool
  | none, none => true
  | some s, some t => caseVariant s t
  | _, _ => false

/-- Two tag lists of the same length whose tags are pairwise case variants. -/
def caseVariantTags : List String → List String → Bool
  | [], [] => true
  | s :: ss, t :: ts => caseVariant s t && caseVariantTags ss ts
  | _, _ => false

/-- Two optional tag lists, both absent or both present and case variants. -/
def caseVariantTagsOpt : Option (List String) → Option (List String) → Bool
  | none, none => true
  | some s, some t => caseVariantTags s t
  | _, _ => false

/-! ## The stored collection and the listing route -/

/-- A stored document of the `Community` collection (`models/Community.js`).
`_id` is the ObjectId read as a number, `createdAt` the creation time in
milliseconds. -/
structure Community where
  _id : Nat
  title : String
  description : String
  fullDescription : String := ""
  tech_stack : String
  platform : String
  location_mode : String
  tags : List String := []
  community_page : String := ""
  joining_link : String
  logo_url : String := ""
  member_count : Int := 0
  activity_level : String := "Medium"
  rules : String := ""
  createdAt : Nat := 0
  updatedAt : Nat := 0
  deriving DecidableEq, Repr

mutual
/-- A value of the parsed query string `req.query`: a text (`a=x`), an array
(`a[]=x&a[]=y`, `a=x&a=y`) or an object with named members (`a[$ne]=x`). -/
inductive QueryValue where
  | str (s : String)
  | arr (items : QueryList)
  | obj (members : QueryMembers)
  deriving DecidableEq, Repr
/-- The items of an array of the parsed query string. -/
inductive QueryList where
  | nil
  | cons (head : QueryValue) (tail : QueryList)
  deriving DecidableEq, Repr
/-- The members of an object of the parsed query string, each with its key. -/
inductive QueryMembers where
  | nil
  | cons (key : String) (value : QueryValue) (tail : QueryMembers)
  deriving DecidableEq, Repr
end

mutual
/-- The conversion `ToString` that `parseInt` and `new RegExp` apply to their
argument: a text is itself, an array is its items joined by commas, an object is
`[object Object]`. -/
def toJsString : QueryValue → String
  | QueryValue.str s => s
  | QueryValue.arr items => joinItems items
  | QueryValue.obj _ => "[object Object]"
/-- The items of an array, converted and joined by commas. -/
def joinItems : QueryList → String
  | QueryList.nil => ""
  | QueryList.cons v QueryList.nil => toJsString v
  | QueryList.cons v (QueryList.cons w rest) =>
    toJsString v ++ "," ++ joinItems (QueryList.cons w rest)
end

/-- The parts of the document store that the routes call and that are not part of
this repository: the regular-expression engine, the text of the fault raised for an
unusable cursor position, and the reading of a constraint that is not a text.
`compileRegex p` compiles the pattern `p` with option `i`; it fails with a message
when `p` is not a valid pattern, and otherwise gives the test "some part of the
subject matches `p`". `structured v` is what the store makes of a constraint
`{ field: v }` on a text field when `v` is an array or an object, such as the
operator object `{ $ne: x }`: the test on the value of the field, or the message of
the fault. -/
structure Engine where
  compileRegex : String → Except String (String → Bool)
  cursorFault : String
  structured : QueryValue → Except String (String → Bool)

/-- The parsed query string of `GET /api/communities`: every parameter may be absent,
and a present one is whatever the query parser made of it, a text, an array or an
object. -/
structure ListQuery where
  search : Option QueryValue := none
  tech_stack : Option QueryValue := none
  platform : Option QueryValue := none
  location_mode : Option QueryValue := none
  activity_level : Option QueryValue := none
  page : Option QueryValue := none
  limit : Option QueryValue := none
  deriving DecidableEq, Repr

/-- Truthiness of an optional query value, as tested by `if (x)`: absent and the empty
text are falsy, every array and every object is truthy. -/
def truthyValue (x : Option QueryValue) : Bool :=
  match x with
  | some (QueryValue.str s) => s != ""
  | some _ => true
  | none => false

/-- Truthiness of an optional string, as tested by `if (x)`: present and not empty. -/
def truthy (x : Option String) : Bool :=
  match x with
  | some s => s != ""
  | none => false

/-- The characters of the class `[.*+?^${}()|[\]\\]`. -/
def regexSpecials : List Char :=
  ['.', '*', '+', '?', '^', '$', '\x7b', '\x7d', '(', ')', '|', '[', ']', '\\']

/-- The replacement `tech_stack.replace(/[.*+?^${}()|[\]\\]/g, '\\$&')`: a backslash
is put before every special character. -/
def escapeRegExp (s : String) : String :=
  ⟨s.data.flatMap (fun c => if regexSpecials.contains c then ['\\', c] else [c])⟩

/-- The filter object built by the listing route. `search` is the operand of the
`$or` of the three case-insensitive patterns on title, description and tags,
`tech_stack` the escaped case-insensitive pattern; platform, location_mode and
activity_level hold the parsed values as the route copies them, without a test of
their type. `thrown` is the message of the exception raised while the filter is
built, if there is one. -/
structure Filter where
  search : Option QueryValue := none
  tech_stack : Option String := none
  platform : Option QueryValue := none
  location_mode : Option QueryValue := none
  activity_level : Option QueryValue := none
  thrown : Option String := none
  deriving DecidableEq, Repr

/-- The escaped pattern of the tech_stack parameter, when it is a non-empty text. -/
def stackPattern (v : Option QueryValue) : Option String :=
  match v with
  | some (QueryValue.str s) => if s != "" then some (escapeRegExp s) else none
  | _ => none

/-- The exception of `tech_stack.replace(...)`: an array or an object is truthy and
has no method `replace`. -/
def stackThrown (v : Option QueryValue) : Option String :=
  match v with
  | some (QueryValue.arr _) => some "tech_stack.replace is not a function"
  | some (QueryValue.obj _) => some "tech_stack.replace is not a function"
  | _ => none

/-- The filter of a query: a parameter contributes when it is truthy, and the route
copies the parsed value of platform, location_mode and activity_level as it is. -/
def buildFilter (q : ListQuery) : Filter :=
  { search := if truthyValue q.search then q.search else none
    tech_stack := stackPattern q.tech_stack
    platform := if truthyValue q.platform then q.platform else none
    location_mode := if truthyValue q.location_mode then q.location_mode else none
    activity_level := if truthyValue q.activity_level then q.activity_level else none
    thrown := stackThrown q.tech_stack }

/-- The test that a constraint `{ field: value }` of the filter puts on a text field:
none when the value is absent, equality with a text, and for an array or an object
what the store makes of it. -/
def fieldConstraint (e : Engine) (want : Option QueryValue) : Except String (String → Bool) :=
  match want with
  | none => .ok (fun _ => true)
  | some (QueryValue.str v) => .ok (fun field => field == v)
  | some v => e.structured v

/-- An optional pattern, compiled; an absent pattern accepts every subject. -/
def compileOpt (e : Engine) (pat : Option String) : Except String (String → Bool) :=
  match pat with
  | some p => e.compileRegex p
  | none => .ok (fun _ => true)

/-- The test that the constraint `{ $regex: search, $options: 'i' }` puts on title and
description: for a text it is the test of the compiled pattern `compiled`, for an
array or an object what the store makes of the operator object. -/
def searchField (e : Engine) (search : Option QueryValue) (compiled : String → Bool) :
    Except String (String → Bool) :=
  match search with
  | none => .ok (fun _ => true)
  | some (QueryValue.str _) => .ok compiled
  | some v =>
    e.structured
      (QueryValue.obj
        (QueryMembers.cons "$regex" v
          (QueryMembers.cons "$options" (QueryValue.str "i") QueryMembers.nil)))

/-- The predicate on documents that a filter denotes, or the message of the fault:
of `new RegExp(search, 'i')` when the search text is not a valid pattern, of the
exception raised while the filter was built, or of the store when it refuses a
pattern or a constraint. -/
def compileFilter (e : Engine) (f : Filter) : Except String (Community → Bool) :=
  match compileOpt e (f.search.map toJsString) with
  | .error msg => .error msg
  | .ok tagTest =>
    match f.thrown with
    | some msg => .error msg
    | none =>
      match searchField e f.search tagTest, compileOpt e f.tech_stack,
        fieldConstraint e f.platform, fieldConstraint e f.location_mode,
        fieldConstraint e f.activity_level with
      | .error msg, _, _, _, _ => .error msg
      | .ok _, .error msg, _, _, _ => .error msg
      | .ok _, .ok _, .error msg, _, _ => .error msg
      | .ok _, .ok _, .ok _, .error msg, _ => .error msg
      | .ok _, .ok _, .ok _, .ok _, .error msg => .error msg
      | .ok searchTest, .ok stackTest, .ok platformTest, .ok modeTest, .ok levelTest =>
        .ok (fun d =>
          (f.search.isNone ||
            (searchTest d.title || searchTest d.description || d.tags.any tagTest)) &&
          (f.tech_stack.isNone || stackTest d.tech_stack) &&
          platformTest d.platform &&
          modeTest d.location_mode &&
          levelTest d.activity_level)

/-- The order of `.sort({ member_count: -1, createdAt: -1 })`: larger member count
first, and among equal member counts the later creation time first. -/
def listOrder (a b : Community) : Prop :=
  b.member_count < a.member_count ∨
    (a.member_count = b.member_count ∧ b.createdAt ≤ a.createdAt)

instance : DecidableRel listOrder := fun a b => by
  unfold listOrder
  exact inferInstance

/-- The sort stage of the store; documents with equal keys keep their stored order. -/
def sortDocs (docs : List Community) : List Community := List.insertionSort listOrder docs

/-- The digit value of a character in the given radix, if it is a digit there. -/
def digitValue (radix : Nat) (c : Char) : Option Nat :=
  let n := c.toNat
  let v :=
    if 48 ≤ n ∧ n ≤ 57 then some (n - 48)
    else if 97 ≤ n ∧ n ≤ 122 then some (n - 97 + 10)
    else if 65 ≤ n ∧ n ≤ 90 then some (n - 65 + 10)
    else none
  match v with
  | some d => if d < radix then some d else none
  | none => none

/-- The value of the longest prefix of digits, and whether there was a digit. -/
def parseDigits (radix : Nat) : List Char → Nat → Bool → Nat × Bool
  | [], acc, seen => (acc, seen)
  | c :: cs, acc, seen =>
    match digitValue radix c with
    | some d => parseDigits radix cs (acc * radix + d) true
    | none => (acc, seen)

/-- The function `parseInt` with one argument: leading white space is skipped, a sign
is read, a prefix `0x` or `0X` selects radix 16, and the longest prefix of digits is
the value; `none` is `NaN`. Values are exact integers. -/
def parseInt (s : String) : Option Int :=
  let body := s.data.dropWhile isWhiteSpace
  let (neg, rest) :=
    match body with
    | '-' :: r => (true, r)
    | '+' :: r => (false, r)
    | r => (false, r)
  let (radix, digits) :=
    match rest with
    | '0' :: 'x' :: r => (16, r)
    | '0' :: 'X' :: r => (16, r)
    | r => (10, r)
  match parseDigits radix digits 0 false with
  | (v, true) => some (if neg then -(v : Int) else (v : Int))
  | (_, false) => none

/-- The value of `parseInt(page)`: the default is the number 1. -/
def pageOf (q : ListQuery) : Option Int :=
  match q.page with
  | some v => parseInt (toJsString v)
  | none => some 1

/-- The value of `parseInt(limit)`: the default is the number 20. -/
def limitOf (q : ListQuery) : Option Int :=
  match q.limit with
  | some v => parseInt (toJsString v)
  | none => some 20

/-- The limit stage of the store: 0 means no limit, and a negative limit keeps as
many documents as its absolute value. -/
def applyLimit (limit : Int) (docs : List Community) : List Community :=
  if limit = 0 then docs else docs.take limit.natAbs

/-- The value of `Math.ceil(total / limit)`; `none` when the quotient is not a finite
number (limit 0). -/
def pagesOf (total : Nat) (limit : Int) : Option Int :=
  if limit = 0 then none else some (-(Int.fdiv (-(total : Int)) limit))

/-- The body of a successful listing response. -/
structure ListingBody where
  success : Bool
  count : Nat
  total : Nat
  page : Option Int
  pages : Option Int
  data : List Community
  deriving DecidableEq, Repr

/-- The response of the listing route: status 200 with a body, or status 500 with
`success: false`, message "Server error" and the message of the fault. -/
inductive ListingResponse where
  | ok (body : ListingBody)
  | serverError (error : String)
  deriving DecidableEq, Repr

/-- The documents of a response; a fault carries none. -/
def ListingResponse.data : ListingResponse → List Community
  | .ok body => body.data
  | .serverError _ => []

/-- The route `GET /api/communities` on a store whose documents are listed in stored
order. A pattern that does not compile, a page or limit that is `NaN`, and a negative
skip are faults of the store and end in the `catch` branch. -/
def listing (e : Engine) (store : List Community) (q : ListQuery) : ListingResponse :=
  match compileFilter e (buildFilter q) with
  | .error msg => .serverError msg
  | .ok test =>
    match pageOf q, limitOf q with
    | some page, some limit =>
      let skip := (page - 1) * limit
      if skip < 0 then .serverError e.cursorFault
      else
        let communities := applyLimit limit ((sortDocs (store.filter test)).drop skip.toNat)
        let total := (store.filter test).length
        .ok { success := true
              count := communities.length
              total := total
              page := some page
              pages := pagesOf total limit
              data := communities }
    | _, _ => .serverError e.cursorFault

/-- The reading of structured constraints by the engines for fixtures: the operator
object `{ $ne: x }` with a text `x` accepts the values other than `x`; every other
array or object is refused. -/
def notEqualOnly : QueryValue → Except String (String → Bool)
  | QueryValue.obj (QueryMembers.cons key (QueryValue.str v) QueryMembers.nil) =>
    if key = "$ne" then .ok (fun field => field != v)
    else .error ("unknown operator: " ++ key)
  | _ => .error "unknown operator"

/-- An engine for fixtures: a pattern of letters, digits and spaces matches as a
literal, ignoring case; every other pattern is refused. -/
def literalEngine : Engine :=
  { compileRegex := fun p =>
      if p.data.all (fun c => c.isAlphanum || c = ' ') then
        .ok (fun subject => includes (toLowerCase subject) (toLowerCase p))
      else .error ("Invalid regular expression: /" ++ p ++ "/")
    cursorFault := "Skip value must be non-negative"
    structured := notEqualOnly }

/-! ## Literal patterns and an engine for a fragment of the pattern language -/

/-- Decoder of literal patterns. A pattern that consists only of ordinary characters
and of special characters each preceded by a backslash denotes a literal text; the
result is that text, and `none` when the pattern holds a special character that is
not escaped, an escaped ordinary character, or a trailing backslash. The flag says
that the previous character was the escaping backslash. -/
def literalOfAux : Bool → List Char → Option (List Char)
  | false, [] => some []
  | true, [] => none
  | true, c :: rest =>
    if regexSpecials.contains c then (literalOfAux false rest).map (fun l => c :: l) else none
  | false, c :: rest =>
    if c = '\\' then literalOfAux true rest
    else if regexSpecials.contains c then none
    else (literalOfAux false rest).map (fun l => c :: l)

/-- The literal text that a pattern denotes, if it is a literal pattern. -/
def literalOf (pattern : String) : Option String := (literalOfAux false pattern.data).map String.mk

/-- An engine respects literal patterns: a literal pattern compiles, and its test
accepts exactly the subjects that contain the denoted text, ignoring letter case. -/
def Engine.readsLiterals (e : Engine) : Prop :=
  ∀ (p lit : String), literalOf p = some lit →
    ∃ t, e.compileRegex p = .ok t ∧ ∀ s, t s = includes (toLowerCase s) (toLowerCase lit)

/-- The atoms of the fragment: a literal character, or the wildcard `.`. -/
inductive Atom where
  | lit (c : Char)
  | any
  deriving DecidableEq, Repr

/-- Parser of the fragment: ordinary characters, escaped special characters and the
wildcard `.`; every other pattern is refused. -/
def parseAtomsAux : Bool → List Char → Option (List Atom)
  | false, [] => some []
  | true, [] => none
  | true, c :: rest =>
    if regexSpecials.contains c then (parseAtomsAux false rest).map (fun l => Atom.lit c :: l)
    else none
  | false, c :: rest =>
    if c = '\\' then parseAtomsAux true rest
    else if c = '.' then (parseAtomsAux false rest).map (fun l => Atom.any :: l)
    else if regexSpecials.contains c then none
    else (parseAtomsAux false rest).map (fun l => Atom.lit c :: l)

/-- Whether the atoms match a prefix of the subject, ignoring letter case; the
wildcard matches every character but the line feed. -/
def matchHere : List Atom → List Char → Bool
  | [], _ => true
  | _ :: _, [] => false
  | Atom.lit c :: atoms, x :: xs => (c.toLower == x.toLower) && matchHere atoms xs
  | Atom.any :: atoms, x :: xs => (x != '\n') && matchHere atoms xs

/-- Whether the atoms match somewhere in the subject. -/
def searchAtoms (atoms : List Atom) : List Char → Bool
  | [] => matchHere atoms []
  | x :: xs => matchHere atoms (x :: xs) || searchAtoms atoms xs

/-- An engine for the fragment of the pattern language made of ordinary characters,
escaped special characters and the wildcard `.`; every other pattern is refused. -/
def fragmentEngine : Engine :=
  { compileRegex := fun p =>
      match parseAtomsAux false p.data with
      | some atoms => .ok (fun subject => searchAtoms atoms subject.data)
      | none => .error ("Invalid regular expression: /" ++ p ++ "/")
    cursorFault := "Skip value must be non-negative"
    structured := notEqualOnly }

/-! ## The detail route -/

/-- The cast of a route parameter to an ObjectId: a text of 24 hexadecimal digits is
read as a number, every other text is refused. -/
def parseObjectId (id : String) : Option Nat :=
  if id.data.length = 24 then
    id.data.foldl
      (fun acc c =>
        match acc, digitValue 16 c with
        | some a, some d => some (a * 16 + d)
        | _, _ => none)
      (some 0)
  else none

/-- The response of the detail route; absent properties are `none`, and `related` is
empty when the response carries no list. -/
structure DetailResponse where
  status : Nat
  success : Bool
  message : Option String := none
  error : Option String := none
  data : Option Community := none
  related : List Community := []
  deriving DecidableEq, Repr

/-- The related communities of a document: the first three documents, in stored
order, with another `_id` and with the same tech_stack or a tag in common. -/
def relatedOf (store : List Community) (community : Community) : List Community :=
  (store.filter (fun d =>
    d._id != community._id &&
      (d.tech_stack == community.tech_stack ||
        d.tags.any (fun t => community.tags.contains t)))).take 3

/-- The route `GET /api/communities/:id`. A parameter that is not an ObjectId makes
`findById` fail, which ends in the `catch` branch. -/
def detail (store : List Community) (id : String) : DetailResponse :=
  match parseObjectId id with
  | none =>
    { status := 500, success := false, message := some "Server error",
      error := some ("Cast to ObjectId failed for value \"" ++ id ++
        "\" (type string) at path \"_id\" for model \"Community\"") }
  | some oid =>
    match store.find? (fun d => d._id == oid) with
    | none => { status := 404, success := false, message := some "Community not found" }
    | some community =>
      { status := 200, success := true, data := some community,
        related := relatedOf store community }

/-! ## The creation route -/

/-- The two shapes of the `tags` property of a request body. -/
inductive TagsInput where
  | array (tags : List String)
  | text (tags : String)
  deriving DecidableEq, Repr

/-- The body of `POST /api/communities`; every property may be absent. The number
`member_count` is carried in its textual form. -/
structure CreateBody where
  title : Option String := none
  description : Option String := none
  fullDescription : Option String := none
  tech_stack : Option String := none
  platform : Option String := none
  location_mode : Option String := none
  tags : Option TagsInput := none
  joining_link : Option String := none
  community_page : Option String := none
  logo_url : Option String := none
  member_count : Option String := none
  activity_level : Option String := none
  rules : Option String := none
  deriving DecidableEq, Repr

/-- One entry of an error list: the field and the message. -/
structure FieldError where
  field : String
  message : String
  deriving DecidableEq, Repr

/-- The six validation chains of the route, in their order: the field, its value in
the body and the message of `notEmpty`. -/
def requiredFields (b : CreateBody) : List (String × Option String × String) :=
  [ ("title", b.title, "Title is required"),
    ("description", b.description, "Description is required"),
    ("tech_stack", b.tech_stack, "Tech stack is required"),
    ("platform", b.platform, "Platform is required"),
    ("location_mode", b.location_mode, "Location mode is required"),
    ("joining_link", b.joining_link, "Joining link is required") ]

/-- A value fails `trim().notEmpty()`: it is absent or empty after trimming. -/
def isBlank (v : Option String) : Bool := trim (orEmpty v) == ""

/-- The result of the validation chains, `validationResult(req).array()`. -/
def validationErrors (b : CreateBody) : List FieldError :=
  (requiredFields b).filterMap (fun r => if isBlank r.2.1 then some ⟨r.1, r.2.2⟩ else none)

/-- The pieces of a text between the occurrences of a separator, `split`. -/
def splitList (sep : Char) : List Char → List (List Char)
  | [] => [[]]
  | c :: cs =>
    if c = sep then [] :: splitList sep cs
    else
      match splitList sep cs with
      | [] => [[c]]
      | w :: ws => (c :: w) :: ws

/-- The method `String.prototype.split` with a one-character separator. -/
def split (s : String) (sep : Char) : List String := (splitList sep s.data).map String.mk

/-- The tags of the new record: an array is taken as it is, a non-empty text is split
at the commas, the pieces are trimmed and the empty ones dropped, and everything else
gives the empty list. -/
def normalizeTags (tags : Option TagsInput) : List String :=
  match tags with
  | some (TagsInput.array xs) => xs
  | some (TagsInput.text s) =>
    if s != "" then ((split s ',').map trim).filter (fun t => t != "") else []
  | none => []

/-- The expression `parseInt(req.body.member_count) || 0`. -/
def memberCountOf (v : Option String) : Int :=
  match v with
  | some s => (parseInt s).getD 0
  | none => 0

/-- The expression `x?.trim() || ''`. -/
def trimOrEmpty (v : Option String) : String := trim (orEmpty v)

/-- The expression `req.body.activity_level || 'Medium'`. -/
def activityLevelOf (v : Option String) : String :=
  match v with
  | some s => if s != "" then s else "Medium"
  | none => "Medium"

/-- The values of the `platform` enumeration of the schema. -/
def platformEnum : List String :=
  ["Discord", "Slack", "Reddit", "Forum", "Telegram", "WhatsApp", "GitHub", "Twitter",
    "Meetup", "LinkedIn", "Blog", "Community", "Guide"]

/-- The values of the `location_mode` enumeration of the schema. -/
def locationModeEnum : List String :=
  ["Global/Online", "Global/Online & Offline", "Offline", "Hybrid", "India/Online"]

/-- The values of the `activity_level` enumeration of the schema. -/
def activityLevelEnum : List String :=
  ["Low", "Medium", "High", "Very Active", "High (Seasonal)"]

/-- The error of a `required` validator of the schema, if the value is empty. -/
def requiredError (path value : String) : List FieldError :=
  if value == "" then [⟨path, "Path `" ++ path ++ "` is required."⟩] else []

/-- The error of an `enum` validator of the schema, if the value is not enumerated. -/
def enumError (path value : String) (allowed : List String) : List FieldError :=
  if allowed.contains value then []
  else [⟨path, "`" ++ value ++ "` is not a valid enum value for path `" ++ path ++ "`."⟩]

/-- The validation of a document against `communitySchema`, run by `Community.create`
before the insertion. A required text that is empty gets the required error only. -/
def schemaErrors (d : Community) : List FieldError :=
  requiredError "title" d.title ++
  requiredError "description" d.description ++
  requiredError "tech_stack" d.tech_stack ++
  (if d.platform == "" then requiredError "platform" d.platform
    else enumError "platform" d.platform platformEnum) ++
  (if d.location_mode == "" then requiredError "location_mode" d.location_mode
    else enumError "location_mode" d.location_mode locationModeEnum) ++
  requiredError "joining_link" d.joining_link ++
  enumError "activity_level" d.activity_level activityLevelEnum

/-- What the creation route takes from its environment: the test whether `new URL(x)`
succeeds, the runtime mode, the identifier and the time given to a new document, and
the message of an unexpected failure of the store, if one occurs. -/
structure CreateEnv where
  validURL : String → Bool
  production : Bool
  newId : Nat
  now : Nat
  insertFault : Option String

/-- The response of the creation route. -/
structure CreateResponse where
  status : Nat
  success : Bool
  message : String
  errors : List FieldError := []
  error : Option String := none
  data : Option Community := none
  deriving DecidableEq, Repr

/-- The object `communityData` of the handler, with the identifier and the times that
the store gives to the document. -/
def communityDataOf (env : CreateEnv) (b : CreateBody) : Community :=
  { _id := env.newId
    title := trim (orEmpty b.title)
    description := trim (orEmpty b.description)
    fullDescription := trimOrEmpty b.fullDescription
    tech_stack := trim (orEmpty b.tech_stack)
    platform := trim (orEmpty b.platform)
    location_mode := trim (orEmpty b.location_mode)
    tags := normalizeTags b.tags
    joining_link := trim (orEmpty b.joining_link)
    community_page := trimOrEmpty b.community_page
    logo_url := trimOrEmpty b.logo_url
    member_count := memberCountOf b.member_count
    activity_level := activityLevelOf b.activity_level
    rules := trimOrEmpty b.rules
    createdAt := env.now
    updatedAt := env.now }

/-- The handler of `POST /api/communities`, run after the `protect` middleware has
admitted the request: the response and the store after the request. -/
def createCommunity (env : CreateEnv) (store : List Community) (b : CreateBody) :
    CreateResponse × List Community :=
  let errors := validationErrors b
  if !errors.isEmpty then
    ({ status := 400, success := false, message := "Validation failed", errors := errors },
      store)
  else
    let communityData := communityDataOf env b
    if !env.validURL communityData.joining_link then
      ({ status := 400, success := false, message := "Invalid joining link URL format" },
        store)
    else
      let invalid := schemaErrors communityData
      if !invalid.isEmpty then
        ({ status := 400, success := false, message := "Validation failed",
           errors := invalid }, store)
      else
        match env.insertFault with
        | some msg =>
          ({ status := 500, success := false, message := "Server error",
             error := some (if env.production then "Internal server error" else msg) },
            store)
        | none =>
          ({ status := 201, success := true, message := "Community created successfully",
             data := some communityData }, store ++ [communityData])

/-- An environment for fixtures: a link is accepted when it starts with `http://` or
`https://` and holds no space; the store works. -/
def sampleEnv : CreateEnv :=
  { validURL := fun s =>
      ("http://".data.isPrefixOf s.data || "https://".data.isPrefixOf s.data) &&
        !s.data.contains ' '
    production := false
    newId := 100
    now := 1000
    insertFault := none }

/-! ## The featured route -/

/-- Comparison of two texts as the store compares strings: position by position by
code point, a proper prefix first. -/
def leList : List Char → List Char → Bool
  | [], _ => true
  | _ :: _, [] => false
  | a :: as, b :: bs => a.toNat < b.toNat || (a.toNat = b.toNat && leList as bs)

/-- The order of `.sort({ member_count: -1, activity_level: -1 })`: larger member
count first, and among equal member counts the larger activity_level text first. -/
def featuredOrder (a b : Community) : Prop :=
  b.member_count < a.member_count ∨
    (a.member_count = b.member_count ∧
      leList b.activity_level.data a.activity_level.data = true)

instance : DecidableRel featuredOrder := fun a b => by
  unfold featuredOrder
  exact inferInstance

/-- The response of the featured route. -/
structure FeaturedResponse where
  status : Nat
  success : Bool
  message : Option String := none
  error : Option String := none
  data : List Community := []
  deriving DecidableEq, Repr

/-- The route `GET /api/communities/featured/list`: the first six documents in the
order of the sort. `fault` is the message of an unexpected failure of the store, if
one occurs; it ends in the `catch` branch. -/
def featured (fault : Option String) (store : List Community) : FeaturedResponse :=
  match fault with
  | some msg =>
    { status := 500, success := false, message := some "Server error", error := some msg }
  | none =>
    { status := 200, success := true,
      data := (List.insertionSort featuredOrder store).take 6 }

/-! ## Sequences of requests -/

/-- A request to one of the four routes, with what the route takes from its
environment. -/
inductive Request where
  | listing (e : Engine) (q : ListQuery)
  | detail (id : String)
  | featured (fault : Option String)
  | create (env : CreateEnv) (body : CreateBody)

/-- The store after a request: only the creation route writes. -/
def step (store : List Community) : Request → List Community
  | Request.listing _ _ => store
  | Request.detail _ => store
  | Request.featured _ => store
  | Request.create env body => (createCommunity env store body).2

/-- The store after a sequence of requests. -/
def run (store : List Community) (requests : List Request) : List Community :=
  requests.foldl step store

/-- The invariant of a stored document: the six required texts are non-empty after
trimming, and platform and location_mode are values of their enumerations. -/
def wellFormed (d : Community) : Bool :=
  trim d.title != "" && trim d.description != "" && trim d.tech_stack != "" &&
  trim d.platform != "" && trim d.location_mode != "" && trim d.joining_link != "" &&
  platformEnum.contains d.platform && locationModeEnum.contains d.location_mode

/-! ## The Match Maker questionnaire -/

/-- The state `formData` of the questionnaire. -/
structure FormData where
  skillLevel : String := ""
  goals : List String := []
  preferredFormat : String := ""
  techStack : List String := []
  location : String := ""
  deriving DecidableEq, Repr

/-- The formats offered by the questionnaire. -/
def formats : List String := ["Online", "Local/In-person", "Hybrid"]

/-- The tech options offered by the questionnaire. -/
def techOptions : List String :=
  ["React", "Node.js", "Python", "Vue", "Angular", "Django", "Flask", "Machine Learning"]

/-- The object `params` that `fetchMatchedCommunities` sends to the listing route. -/
def matchMakerParams (formData : FormData) : ListQuery :=
  { tech_stack :=
      if formData.techStack.length > 0 then
        some (QueryValue.str (join "|" formData.techStack))
      else none
    location_mode :=
      if formData.preferredFormat = "Online" then some (QueryValue.str "Global/Online")
      else if formData.preferredFormat = "Local/In-person" then some (QueryValue.str "Local")
      else none }

/-! ## The CORS check of the server -/

/-- The method `String.prototype.startsWith`. -/
def startsWith (s pre : String) : Bool := pre.data.isPrefixOf s.data

/-- The method `String.prototype.endsWith`. -/
def endsWith (s suffix : String) : Bool := suffix.data.reverse.isPrefixOf s.data.reverse

/-- The list `allowedOrigins`: five fixed origins and the values of `CORS_ORIGIN` and
`FRONTEND_URL`, without the absent and empty ones (`filter(Boolean)`). -/
def allowedOrigins (corsOrigin frontendUrl : Option String) : List String :=
  [ "http://localhost:5173",
    "http://localhost:3000",
    "http://localhost:5174",
    "https://getdevcomm.vercel.app",
    "https://www.getdevcomm.vercel.app" ] ++
  ([corsOrigin, frontendUrl].filterMap (fun v => if truthy v then v else none))

/-- The `origin` callback of the CORS configuration: whether the origin is accepted.
`production` says that `NODE_ENV` is `"production"`. -/
def corsAccepts (corsOrigin frontendUrl : Option String) (production : Bool)
    (origin : Option String) : Bool :=
  if !truthy origin then true
  else
    let o := orEmpty origin
    if (allowedOrigins corsOrigin frontendUrl).contains o then true
    else if includes o "vercel.app" then true
    else if includes o "netlify.app" then true
    else if !production && startsWith o "http://localhost:" then true
    else false

/-- Search for the first `://`; `whole` is returned when there is none. -/
def afterSchemeAux (whole : List Char) : List Char → List Char
  | [] => whole
  | c :: cs =>
    if "://".data.isPrefixOf (c :: cs) then cs.drop 2 else afterSchemeAux whole cs

/-- The text after the first `://` of an origin; the whole text if there is none. -/
def afterScheme (origin : List Char) : List Char := afterSchemeAux origin origin

/-- The host of an origin `scheme://host[:port]`. -/
def hostOf (origin : String) : String :=
  ⟨(afterScheme origin.data).takeWhile (fun c => c != ':' && c != '/')⟩

/-! ## Fixtures -/

/-- The fixture with title "Reactiflux" and tags React, JavaScript. -/
def reactiflux : SeedCommunity :=
  { title := some "Reactiflux", tags := some ["React", "JavaScript"] }

/-- The fixture with title "PySlackers" and the single tag Python. -/
def pyslackers : SeedCommunity := { title := some "PySlackers", tags := some ["Python"] }

/-- A record whose title contains both "django" and "python". -/
def djangoPython : SeedCommunity :=
  { title := some "Django for Python developers", tech_stack := some "Python" }

/-- A record that the Python rule selects and whose description mentions Django. -/
def pythonWithDjangoText : SeedCommunity :=
  { title := some "Python Developers",
    description := some "A community for Python and Django developers" }

/-- A record that the Python rule selects and that carries the tag Django. -/
def pythonWithDjangoTag : SeedCommunity :=
  { title := some "Python Developers", tags := some ["Django"] }

/-- The fixture with title "Kubernetes" and original tech_stack "Node.js". -/
def kubernetes : SeedCommunity := { title := some "Kubernetes", tech_stack := some "Node.js" }

/-- A record without keyword match whose tech_stack consists of two spaces. -/
def blankStack : SeedCommunity := { title := some "Kubernetes", tech_stack := some "  " }

/-- Two records that agree on the five classified fields and differ elsewhere. -/
def rustOnDiscord : SeedCommunity :=
  { title := some "Rust Lang", tags := some ["Rust"], tech_stack := some "Rust",
    platform := some "Discord", member_count := some 40000 }

/-- The second record of the pair. -/
def rustOnReddit : SeedCommunity :=
  { title := some "Rust Lang", tags := some ["Rust"], tech_stack := some "Rust",
    platform := some "Reddit", member_count := some 12, rules := some "Be kind" }

/-- An upper-case spelling of a Vue record. -/
def vueUpper : SeedCommunity :=
  { title := some "VUE LAND", tags := some ["VueJS"], tech_stack := some "General" }

/-- The lower-case spelling of the same record. -/
def vueLower : SeedCommunity :=
  { title := some "vue land", tags := some ["vuejs"], tech_stack := some "General" }

/-- A Discord community with high activity and 100 members, created first. -/
def docA : Community :=
  { _id := 1, title := "Rustaceans", description := "Rust help", tech_stack := "Rust",
    platform := "Discord", location_mode := "Global/Online",
    joining_link := "https://discord.gg/rust", member_count := 100,
    activity_level := "High", createdAt := 1 }

/-- A Discord community with high activity and 500 members. -/
def docB : Community :=
  { _id := 2, title := "Gophers", description := "Go help", tech_stack := "Go",
    platform := "Discord", location_mode := "Global/Online",
    joining_link := "https://discord.gg/golang", member_count := 500,
    activity_level := "High", createdAt := 2 }

/-- A Slack community with high activity and 900 members. -/
def docC : Community :=
  { _id := 3, title := "Kotlin Slack", description := "Kotlin chat", tech_stack := "Kotlin",
    platform := "Slack", location_mode := "Global/Online",
    joining_link := "https://kotlinlang.slack.com", member_count := 900,
    activity_level := "High", createdAt := 3 }

/-- A Discord community with low activity and 50 members. -/
def docD : Community :=
  { _id := 4, title := "Zig Den", description := "Zig chat", tech_stack := "Zig",
    platform := "Discord", location_mode := "Hybrid",
    joining_link := "https://discord.gg/zig", member_count := 50,
    activity_level := "Low", createdAt := 4 }

/-- A Discord community with high activity and 100 members, created last. -/
def docE : Community :=
  { _id := 5, title := "Elixir Hub", description := "Elixir chat", tech_stack := "Elixir",
    platform := "Discord", location_mode := "Global/Online",
    joining_link := "https://discord.gg/elixir", member_count := 100,
    activity_level := "High", createdAt := 5 }

/-- A store of five documents in stored order. -/
def sampleStore : List Community := [docA, docB, docC, docD, docE]

/-- The query `platform=Discord&activity_level=High&page=1&limit=20`. -/
def discordHighQuery : ListQuery :=
  { platform := some (QueryValue.str "Discord"), activity_level := some (QueryValue.str "High"),
    page := some (QueryValue.str "1"), limit := some (QueryValue.str "20") }

/-- The query `platform=`, whose platform parameter is present and empty. -/
def emptyPlatformQuery : ListQuery := { platform := some (QueryValue.str "") }

/-- The query `platform[$ne]=Discord`, whose platform parameter the query parser turns
into the object `{ $ne: "Discord" }`. -/
def notDiscordQuery : ListQuery :=
  { platform :=
      some (QueryValue.obj
        (QueryMembers.cons "$ne" (QueryValue.str "Discord") QueryMembers.nil)) }

/-- The query `platform=Discord&page=2&limit=2`. -/
def discordSecondPage : ListQuery :=
  { platform := some (QueryValue.str "Discord"), page := some (QueryValue.str "2"),
    limit := some (QueryValue.str "2") }

/-- The query `search=.`, whose search text is the single character `.`. -/
def dotSearch : ListQuery := { search := some (QueryValue.str ".") }

/-- The query `search=(`, whose search text is an opening parenthesis. -/
def parenSearch : ListQuery := { search := some (QueryValue.str "(") }

/-- The query `tech_stack=Node.js`. -/
def nodeStackQuery : ListQuery := { tech_stack := some (QueryValue.str "Node.js") }

/-- The query `platform=Discord&limit=3`; the sample store has four matches. -/
def discordByThree : ListQuery :=
  { platform := some (QueryValue.str "Discord"), limit := some (QueryValue.str "3") }

/-- The same filter with another page and page size. -/
def discordByOne : ListQuery :=
  { platform := some (QueryValue.str "Discord"), page := some (QueryValue.str "2"),
    limit := some (QueryValue.str "1") }

/-- A community whose tech_stack is "Node.js". -/
def docNode : Community :=
  { _id := 6, title := "Nodeiflux", description := "Node help", tech_stack := "Node.js",
    platform := "Discord", location_mode := "Global/Online",
    joining_link := "https://discord.gg/nodejs", member_count := 70, createdAt := 6 }

/-- A community whose tech_stack is "NodeXjs": the text "Node.js" does not occur in
it, although the pattern `Node.js` with a wildcard would match it. -/
def docNodeX : Community :=
  { _id := 7, title := "Other", description := "Other help", tech_stack := "NodeXjs",
    platform := "Discord", location_mode := "Global/Online",
    joining_link := "https://discord.gg/other", member_count := 60, createdAt := 7 }

/-- A Rust community with the tag "systems". -/
def relA : Community :=
  { _id := 11, title := "Rust Hub", description := "Rust", tech_stack := "Rust",
    platform := "Discord", location_mode := "Global/Online", tags := ["systems"],
    joining_link := "https://discord.gg/a" }

/-- A second Rust community, without tags. -/
def relB : Community :=
  { _id := 12, title := "Rust Beginners", description := "Rust", tech_stack := "Rust",
    platform := "Slack", location_mode := "Global/Online",
    joining_link := "https://example.org/b" }

/-- A Go community that shares the tag "systems". -/
def relC : Community :=
  { _id := 13, title := "Gophers", description := "Go", tech_stack := "Go",
    platform := "Slack", location_mode := "Global/Online", tags := ["systems", "cloud"],
    joining_link := "https://example.org/c" }

/-- A Kotlin community with nothing in common with the first one. -/
def relD : Community :=
  { _id := 14, title := "Kotlin", description := "Kotlin", tech_stack := "Kotlin",
    platform := "Slack", location_mode := "Global/Online", tags := ["jvm"],
    joining_link := "https://example.org/d" }

/-- A third Rust community. -/
def relE : Community :=
  { _id := 15, title := "Rust Jobs", description := "Rust", tech_stack := "Rust",
    platform := "Forum", location_mode := "Hybrid",
    joining_link := "https://example.org/e" }

/-- A fourth Rust community. -/
def relF : Community :=
  { _id := 16, title := "Rust Games", description := "Rust", tech_stack := "Rust",
    platform := "Forum", location_mode := "Hybrid",
    joining_link := "https://example.org/f" }

/-- A store in which the first document has four related documents. -/
def relatedStore : List Community := [relA, relB, relC, relD, relE, relF]

/-- The identifier of `relA`, as 24 hexadecimal digits (11 is `b`). -/
def relAId : String := "00000000000000000000000b"

/-- A well-formed identifier that no document of `relatedStore` has. -/
def absentId : String := "0000000000000000000000ff"

/-- A complete creation request. -/
def goodBody : CreateBody :=
  { title := some " Rust Hub ", description := some "Rust help", tech_stack := some "Rust",
    platform := some "Discord", location_mode := some "Global/Online",
    joining_link := some "https://discord.gg/rust", tags := some (TagsInput.text "a, b") }

/-- A creation request without joining_link and with a blank title. -/
def missingLinkBody : CreateBody :=
  { title := some "   ", description := some "Rust help", tech_stack := some "Rust",
    platform := some "Discord", location_mode := some "Global/Online" }

/-- A creation request whose joining_link is not a URL. -/
def badLinkBody : CreateBody :=
  { title := some "Rust Hub", description := some "Rust help", tech_stack := some "Rust",
    platform := some "Discord", location_mode := some "Global/Online",
    joining_link := some "not a url" }

/-- A list of comma-free tags with white space around one tag and an empty tag. -/
def rawTags : List String := [" react ", ""]

/-- A complete creation request that carries `rawTags` as an array. -/
def arrayTagsBody : CreateBody := { goodBody with tags := some (TagsInput.array rawTags) }

/-- The same request with the tags joined by commas into one text. -/
def textTagsBody : CreateBody :=
  { goodBody with tags := some (TagsInput.text (join "," rawTags)) }

/-- A complete creation request with the member_count "-5". -/
def negativeCountBody : CreateBody := { goodBody with member_count := some "-5" }

/-- A complete creation request with an activity_level outside the enumeration. -/
def extremeActivityBody : CreateBody := { goodBody with activity_level := some "Extreme" }

/-- A complete creation request with a platform outside the enumeration. -/
def myspaceBody : CreateBody := { goodBody with platform := some "MySpace" }

/-- A production environment in which the store fails. -/
def productionFaultEnv : CreateEnv :=
  { sampleEnv with production := true, insertFault := some "connection lost" }

/-- A sequence of requests to the four routes, with one accepted and one rejected
creation. -/
def sampleRequests : List Request :=
  [ Request.listing literalEngine discordHighQuery,
    Request.create sampleEnv goodBody,
    Request.detail absentId,
    Request.featured none,
    Request.create sampleEnv myspaceBody ]

/-- The selection of the two tech options React and Node.js, with the format
"Local/In-person". -/
def twoStacksForm : FormData :=
  { skillLevel := "Beginner", goals := ["Network"], preferredFormat := "Local/In-person",
    techStack := ["React", "Node.js"] }

/-- The selection of the single tech option React, with the format "Online". -/
def oneStackForm : FormData :=
  { skillLevel := "Beginner", goals := ["Network"], preferredFormat := "Online",
    techStack := ["React"] }

/-- A community whose tech_stack is "React". -/
def docReact : Community :=
  { _id := 8, title := "Reactiflux", description := "React help", tech_stack := "React",
    platform := "Discord", location_mode := "Global/Online",
    joining_link := "https://discord.gg/reactiflux", member_count := 80, createdAt := 8 }

/-- An origin that contains the text "vercel.app" and belongs to another domain. -/
def foreignOrigin : String := "https://vercel.app.evil.example"

/-- The seed record titled "Tailwind CSS". -/
def tailwindCss : SeedCommunity :=
  { title := some "Tailwind CSS"
    description := some "Tailwind community for utility CSS. Beginners can ask on styling."
    fullDescription := some "The Tailwind CSS Discord server is the official space for the utility-first CSS framework, offering channels for configuration, plugins, and best practices. Beginners can style their first project and troubleshoot with experts."
    tech_stack := some "React"
    platform := some "Discord"
    location_mode := some "Global/Online"
    tags := some ["Tailwind", "CSS", "Beginners"]
    community_page := some "https://tailwindcss.com/docs/installation"
    joining_link := some "https://discord.gg/tailwindcss"
    logo_url := some "https://tailwindcss.com/img/logo.svg"
    member_count := some 40000
    activity_level := some "High"
    rules := some "No spam • Respectful • Focus on Tailwind" }

/-- The mapping of the seeding script: the record with its tech_stack replaced by the
label of `getTechStack`. -/
def mapCommunity (community : SeedCommunity) : SeedCommunity :=
  { community with tech_stack := some (getTechStack community) }

/-! ## Theorems: the classification rule chain -/

theorem popularStacks_ne_empty {l : String} (h : popularStacks.contains l = true) : l ≠ "" := by
  intro he
  subst he
  revert h
  decide

theorem orGeneral_ne_empty (s : String) : orGeneral s ≠ "" := by
  unfold orGeneral
  split
  · decide
  · assumption

theorem orGeneral_cases (s : String) : orGeneral s = s ∨ orGeneral s = "General" := by
  unfold orGeneral
  split
  · exact Or.inr rfl
  · exact Or.inl rfl

theorem fallbackLabel_ne_empty (c : SeedCommunity) : fallbackLabel c ≠ "" := by
  unfold fallbackLabel
  simp only
  split
  · next h => exact popularStacks_ne_empty h
  · exact orGeneral_ne_empty _

theorem getTechStack_eq_chain (c : SeedCommunity) :
    getTechStack c =
      if onRecord isReact c then "React"
      else if onRecord isNode c then "Node.js"
      else if onRecord isPython c then
        if onRecord isDjangoInPython c then "Django"
        else if onRecord isFlaskInPython c then "Flask"
        else "Python"
      else if onRecord isDjango c then "Django"
      else if onRecord isFlask c then "Flask"
      else if onRecord isMachineLearning c then "Machine Learning"
      else if onRecord isVue c then "Vue"
      else if onRecord isAngular c then "Angular"
      else fallbackLabel c := rfl

/-- C1: for every seed record `getTechStack` returns a non-empty label, and the label
is one of the eight canonical labels, the trimmed original `tech_stack`, or
`"General"`. -/
theorem getTechStack_total_label (c : SeedCommunity) :
    getTechStack c ≠ "" ∧
      (getTechStack c ∈ ["React", "Node.js", "Python", "Django", "Flask",
          "Machine Learning", "Vue", "Angular"] ∨
        getTechStack c = trim (orEmpty c.tech_stack) ∨
        getTechStack c = "General") := by
  rw [getTechStack_eq_chain]
  split_ifs
  all_goals first
    | exact ⟨by decide, Or.inl (by decide)⟩
    | refine ⟨fallbackLabel_ne_empty c, Or.inr ?_⟩
      unfold fallbackLabel
      simp only
      split
      · exact Or.inl rfl
      · exact orGeneral_cases _

theorem find?_append_cons_of_first {α : Type} (p : α → Bool) (pre post : List α) (r : α)
    (hpre : ∀ q ∈ pre, p q = false) (hr : p r = true) :
    (pre ++ r :: post).find? p = some r := by
  induction pre with
  | nil => simp [List.find?, hr]
  | cons a l ih =>
    have ha : p a = false := hpre a (List.mem_cons_self a l)
    have hl : ∀ q ∈ l, p q = false := fun q hq => hpre q (List.mem_cons_of_mem a hq)
    simp [List.find?, ha, ih hl]

theorem getTechStack_eq_classifyByRules (c : SeedCommunity) :
    getTechStack c = classifyByRules c := by
  rw [getTechStack_eq_chain]
  simp only [classifyByRules, firstMatch, ruleList, List.find?]
  cases onRecord isReact c <;> cases onRecord isNode c <;> cases onRecord isPython c <;>
    cases onRecord isDjangoInPython c <;> cases onRecord isFlaskInPython c <;>
    cases onRecord isDjango c <;> cases onRecord isFlask c <;>
    cases onRecord isMachineLearning c <;> cases onRecord isVue c <;>
    cases onRecord isAngular c <;> rfl

/-- C2: `getTechStack` is first-match evaluation of the ordered rule list followed by
the fallback; the label is the label of the first rule whose predicate holds, whatever
the later rules say; the "PySlackers" fixture matches the Python rule only and is
labelled "Python". -/
theorem getTechStack_first_match :
    (∀ c, getTechStack c = classifyByRules c) ∧
    (∀ c pre r post, ruleList = pre ++ r :: post → (∀ q ∈ pre, q.holds c = false) →
      r.holds c = true → getTechStack c = r.label) ∧
    ((ruleList.filter (fun r => r.holds pyslackers)).map Rule.label = ["Python"] ∧
      getTechStack pyslackers = "Python") := by
  refine ⟨getTechStack_eq_classifyByRules, ?_, by decide, by decide⟩
  intro c pre r post hsplit hpre hr
  rw [getTechStack_eq_classifyByRules, classifyByRules, firstMatch, hsplit,
    find?_append_cons_of_first (fun r => r.holds c) pre post r hpre hr]

/-- Witness for C2: in the rule list the Python rule comes after four rules that do not
hold for "PySlackers", so the label is "Python". -/
theorem getTechStack_first_match_witness : getTechStack pyslackers = "Python" :=
  getTechStack_first_match.2.1 pyslackers
    [ ⟨"React", onRecord isReact⟩,
      ⟨"Node.js", onRecord isNode⟩,
      ⟨"Django", fun c => onRecord isPython c && onRecord isDjangoInPython c⟩,
      ⟨"Flask", fun c => onRecord isPython c && onRecord isFlaskInPython c⟩ ]
    ⟨"Python", onRecord isPython⟩
    [ ⟨"Django", onRecord isDjango⟩,
      ⟨"Flask", onRecord isFlask⟩,
      ⟨"Machine Learning", onRecord isMachineLearning⟩,
      ⟨"Vue", onRecord isVue⟩,
      ⟨"Angular", onRecord isAngular⟩ ]
    rfl (by decide) (by decide)

theorem includes_react_isReact (title : String) (tags : List String) (combined : String)
    (h : includes title "react" = true) : isReact title tags combined = true := by
  simp [isReact, h]

theorem tag_react_isReact (title : String) (tags : List String) (combined : String)
    (h : tags.contains "react" = true) : isReact title tags combined = true := by
  simp only [isReact, h, Bool.or_true, Bool.true_or]

/-- C3: a record whose title contains "react" in any letter case, or one of whose tags
equals "react" ignoring case, is labelled "React", whatever its other fields are. -/
theorem getTechStack_react (c : SeedCommunity)
    (h : includes (toLowerCase (orEmpty c.title)) "react" = true ∨
      ∃ t ∈ c.tags.getD [], toLowerCase t = "react") :
    getTechStack c = "React" := by
  have hr : onRecord isReact c = true := by
    rcases h with h | ⟨t, ht, hte⟩
    · exact includes_react_isReact _ _ _ h
    · apply tag_react_isReact
      simp only [tagsOf, List.contains_eq_any_beq, List.any_map, List.any_eq_true]
      exact ⟨t, ht, by simp [hte]⟩
  rw [getTechStack_eq_chain, if_pos hr]

/-- Witness for C3: the "Reactiflux" fixture, with tags React and JavaScript. -/
theorem getTechStack_react_witness :
    includes (toLowerCase (orEmpty reactiflux.title)) "react" = true ∧
      getTechStack reactiflux = "React" :=
  ⟨by decide, getTechStack_react reactiflux (Or.inl (by decide))⟩

/-- C4: a record whose title contains both "django" and "python" in any letter case,
and for which neither the React nor the Node.js rule matches, is labelled "Django". -/
theorem getTechStack_django_python_title (c : SeedCommunity)
    (hd : includes (toLowerCase (orEmpty c.title)) "django" = true)
    (hp : includes (toLowerCase (orEmpty c.title)) "python" = true)
    (hreact : onRecord isReact c = false) (hnode : onRecord isNode c = false) :
    getTechStack c = "Django" := by
  have h1 : onRecord isPython c = true := by
    simp only [onRecord, isPython, titleOf, hp, Bool.true_or]
  have h2 : onRecord isDjangoInPython c = true := by
    simp only [onRecord, isDjangoInPython, titleOf, hd, Bool.true_or]
  rw [getTechStack_eq_chain]
  simp [hreact, hnode, h1, h2]

/-- Witness for C4: the title "Django for Python developers". -/
theorem getTechStack_django_python_title_witness : getTechStack djangoPython = "Django" :=
  getTechStack_django_python_title djangoPython (by decide) (by decide) (by decide) (by decide)

/-- C5, counterexample: the Python rule selects the record, neither React nor Node.js
matches, the description mentions "Django", and the label is "Python", not "Django". -/
theorem getTechStack_django_mention_counterexample :
    onRecord isPython pythonWithDjangoText = true ∧
    onRecord isReact pythonWithDjangoText = false ∧
    onRecord isNode pythonWithDjangoText = false ∧
    mentionsDjango pythonWithDjangoText = true ∧
    getTechStack pythonWithDjangoText = "Python" ∧
    getTechStack pythonWithDjangoText ≠ "Django" := by decide

/-- C5, amended: when the Python rule matches, neither React nor Node.js matches, and
the title contains "django", or a tag equals "django" ignoring case, or the search blob
contains "django framework", the label is "Django". -/
theorem getTechStack_django_in_python (c : SeedCommunity)
    (hpy : onRecord isPython c = true)
    (hreact : onRecord isReact c = false) (hnode : onRecord isNode c = false)
    (h : includes (toLowerCase (orEmpty c.title)) "django" = true ∨
      (∃ t ∈ c.tags.getD [], toLowerCase t = "django") ∨
      includes (combinedOf c) "django framework" = true) :
    getTechStack c = "Django" ∧ getTechStack c ≠ "Python" := by
  have h2 : onRecord isDjangoInPython c = true := by
    rcases h with h | ⟨t, ht, hte⟩ | h
    · simp only [onRecord, isDjangoInPython, titleOf, h, Bool.true_or]
    · have : (tagsOf c).contains "django" = true := by
        simp only [tagsOf, List.contains_eq_any_beq, List.any_map, List.any_eq_true]
        exact ⟨t, ht, by simp [hte]⟩
      simp only [onRecord, isDjangoInPython, this, Bool.true_or, Bool.or_true]
    · simp only [onRecord, isDjangoInPython, h, Bool.or_true]
  have hl : getTechStack c = "Django" := by
    rw [getTechStack_eq_chain]
    simp [hreact, hnode, hpy, h2]
  exact ⟨hl, by rw [hl]; decide⟩

/-- Witness for C5, amended: a Python record with the tag "Django". -/
theorem getTechStack_django_in_python_witness :
    getTechStack pythonWithDjangoTag = "Django" ∧ getTechStack pythonWithDjangoTag ≠ "Python" :=
  getTechStack_django_in_python pythonWithDjangoTag (by decide) (by decide) (by decide)
    (Or.inr (Or.inl ⟨"Django", by decide, by decide⟩))

theorem getTechStack_of_noRuleMatches (c : SeedCommunity) (h : noRuleMatches c = true) :
    getTechStack c = fallbackLabel c := by
  simp only [noRuleMatches, Bool.not_eq_true', Bool.or_eq_false_iff] at h
  obtain ⟨⟨⟨⟨⟨⟨⟨h1, h2⟩, h3⟩, h4⟩, h5⟩, h6⟩, h7⟩, h8⟩ := h
  rw [getTechStack_eq_chain]
  simp [h1, h2, h3, h4, h5, h6, h7, h8]

theorem trim_popularStacks {l : String} (h : popularStacks.contains l = true) : trim l = l := by
  simp only [popularStacks, List.contains_eq_any_beq, List.any_cons, List.any_nil,
    Bool.or_false, Bool.or_eq_true, beq_iff_eq] at h
  rcases h with h | h | h | h | h | h | h | h <;> subst h <;> decide

/-- C6, counterexample: no keyword rule matches, the original tech_stack is two spaces
(non-empty and not a canonical label), and the label is "General", not the original. -/
theorem getTechStack_fallback_counterexample :
    noRuleMatches blankStack = true ∧
    popularStacks.contains (orEmpty blankStack.tech_stack) = false ∧
    orEmpty blankStack.tech_stack ≠ "" ∧
    getTechStack blankStack = "General" ∧
    getTechStack blankStack ≠ orEmpty blankStack.tech_stack := by decide

/-- C6, amended: when no keyword rule matches, the label is decided by the original
tech_stack after trimming: a canonical label is returned unchanged, another non-empty
trimmed value is returned as it is, and an empty or absent one gives "General".
"Kubernetes" with tech_stack "Node.js" gives "Node.js"; tech_stack "" gives "General". -/
theorem getTechStack_fallback (c : SeedCommunity) (h : noRuleMatches c = true) :
    (popularStacks.contains (orEmpty c.tech_stack) = true →
      getTechStack c = orEmpty c.tech_stack) ∧
    (popularStacks.contains (trim (orEmpty c.tech_stack)) = true →
      getTechStack c = trim (orEmpty c.tech_stack)) ∧
    (popularStacks.contains (trim (orEmpty c.tech_stack)) = false →
      (trim (orEmpty c.tech_stack) ≠ "" → getTechStack c = trim (orEmpty c.tech_stack)) ∧
      (trim (orEmpty c.tech_stack) = "" → getTechStack c = "General")) ∧
    (c.tech_stack = none ∨ c.tech_stack = some "" → getTechStack c = "General") ∧
    getTechStack kubernetes = "Node.js" ∧
    getTechStack { title := some "Kubernetes", tech_stack := some "" } = "General" := by
  rw [getTechStack_of_noRuleMatches c h]
  refine ⟨?_, ?_, ?_, ?_, by decide, by decide⟩
  · intro hp
    have ht := trim_popularStacks hp
    simp only [fallbackLabel, ht, hp, if_true]
  · intro hp
    simp only [fallbackLabel, hp, if_true]
  · intro hp
    constructor
    · intro hne
      simp [fallbackLabel, hp, orGeneral, hne]
    · intro he
      simp [fallbackLabel, he, orGeneral]
      decide
  · intro hn
    have : orEmpty c.tech_stack = "" := by
      rcases hn with hn | hn <;> simp [hn, orEmpty]
    rw [fallbackLabel, this]
    decide

/-- Witness for C6, amended: "Kubernetes" with the canonical tech_stack "Node.js". -/
theorem getTechStack_fallback_witness :
    noRuleMatches kubernetes = true ∧ getTechStack kubernetes = "Node.js" :=
  ⟨by decide, (getTechStack_fallback kubernetes (by decide)).1 (by decide)⟩

/-- C7: `getTechStack` depends only on title, tags, description, fullDescription and
tech_stack: two records that agree on these five fields get the same label. -/
theorem getTechStack_depends_on_five_fields (c₁ c₂ : SeedCommunity)
    (htitle : c₁.title = c₂.title) (htags : c₁.tags = c₂.tags)
    (hdesc : c₁.description = c₂.description)
    (hfull : c₁.fullDescription = c₂.fullDescription)
    (hstack : c₁.tech_stack = c₂.tech_stack) :
    getTechStack c₁ = getTechStack c₂ := by
  simp only [getTechStack, titleOf, tagsOf, combinedOf, descOf, fullDescOf,
    htitle, htags, hdesc, hfull, hstack]

/-- Witness for C7: two records that differ in platform, member_count and rules. -/
theorem getTechStack_depends_on_five_fields_witness :
    rustOnDiscord ≠ rustOnReddit ∧ getTechStack rustOnDiscord = getTechStack rustOnReddit :=
  ⟨by decide, getTechStack_depends_on_five_fields rustOnDiscord rustOnReddit rfl rfl rfl rfl rfl⟩

theorem toLower_of_upper_pair (a b : Char) (h1 : 65 ≤ a.toNat) (h2 : a.toNat ≤ 90)
    (h3 : b.toNat = a.toNat + 32) : a.toLower = b.toLower := by
  have ha : a.toLower = b := by
    unfold Char.toLower
    simp only [ge_iff_le, h1, h2, and_self, if_true]
    rw [← h3, Char.ofNat_toNat]
  have hb : b.toLower = b := by
    unfold Char.toLower
    have : ¬ (b.toNat ≥ 65 ∧ b.toNat ≤ 90) := by omega
    simp only [this, if_false]
  rw [ha, hb]

theorem sameLetter_toLower (a b : Char) (h : sameLetter a b = true) :
    a.toLower = b.toLower := by
  simp only [sameLetter, Bool.or_eq_true, Bool.and_eq_true, decide_eq_true_eq] at h
  rcases h with (h | ⟨⟨h1, h2⟩, h3⟩) | ⟨⟨h1, h2⟩, h3⟩
  · rw [h]
  · exact toLower_of_upper_pair a b h1 h2 h3
  · exact (toLower_of_upper_pair b a h1 h2 h3).symm

theorem caseVariantList_map_toLower :
    ∀ (s t : List Char), caseVariantList s t = true → s.map Char.toLower = t.map Char.toLower
  | [], [], _ => rfl
  | [], _ :: _, h => by simp [caseVariantList] at h
  | _ :: _, [], h => by simp [caseVariantList] at h
  | a :: as, b :: bs, h => by
    simp only [caseVariantList, Bool.and_eq_true] at h
    simp only [List.map_cons, sameLetter_toLower a b h.1, caseVariantList_map_toLower as bs h.2]

theorem caseVariant_toLowerCase (s t : String) (h : caseVariant s t = true) :
    toLowerCase s = toLowerCase t := by
  unfold toLowerCase
  rw [caseVariantList_map_toLower s.data t.data h]

theorem caseVariantOpt_toLowerCase :
    ∀ (a b : Option String), caseVariantOpt a b = true →
      toLowerCase (orEmpty a) = toLowerCase (orEmpty b)
  | none, none, _ => rfl
  | none, some _, h => by simp [caseVariantOpt] at h
  | some _, none, h => by simp [caseVariantOpt] at h
  | some s, some t, h => caseVariant_toLowerCase s t h

theorem caseVariantTags_map_toLowerCase :
    ∀ (s t : List String), caseVariantTags s t = true → s.map toLowerCase = t.map toLowerCase
  | [], [], _ => rfl
  | [], _ :: _, h => by simp [caseVariantTags] at h
  | _ :: _, [], h => by simp [caseVariantTags] at h
  | a :: as, b :: bs, h => by
    simp only [caseVariantTags, Bool.and_eq_true] at h
    simp only [List.map_cons, caseVariant_toLowerCase a b h.1,
      caseVariantTags_map_toLowerCase as bs h.2]

theorem caseVariantTagsOpt_tagsOf (c₁ c₂ : SeedCommunity)
    (h : caseVariantTagsOpt c₁.tags c₂.tags = true) : tagsOf c₁ = tagsOf c₂ := by
  unfold tagsOf
  cases h1 : c₁.tags with
  | none =>
    cases h2 : c₂.tags with
    | none => rfl
    | some t => rw [h1, h2] at h; simp [caseVariantTagsOpt] at h
  | some s =>
    cases h2 : c₂.tags with
    | none => rw [h1, h2] at h; simp [caseVariantTagsOpt] at h
    | some t =>
      rw [h1, h2] at h
      exact caseVariantTags_map_toLowerCase s t h

/-- C8: keyword matching is case-insensitive: two records with the same tech_stack whose
title, description, fullDescription and tags differ only in the case of ASCII letters
get the same label. -/
theorem getTechStack_case_insensitive (c₁ c₂ : SeedCommunity)
    (hstack : c₁.tech_stack = c₂.tech_stack)
    (htitle : caseVariantOpt c₁.title c₂.title = true)
    (hdesc : caseVariantOpt c₁.description c₂.description = true)
    (hfull : caseVariantOpt c₁.fullDescription c₂.fullDescription = true)
    (htags : caseVariantTagsOpt c₁.tags c₂.tags = true) :
    getTechStack c₁ = getTechStack c₂ := by
  have e1 : titleOf c₁ = titleOf c₂ := caseVariantOpt_toLowerCase _ _ htitle
  have e2 : descOf c₁ = descOf c₂ := caseVariantOpt_toLowerCase _ _ hdesc
  have e3 : fullDescOf c₁ = fullDescOf c₂ := caseVariantOpt_toLowerCase _ _ hfull
  have e4 : tagsOf c₁ = tagsOf c₂ := caseVariantTagsOpt_tagsOf c₁ c₂ htags
  have e5 : combinedOf c₁ = combinedOf c₂ := by
    simp only [combinedOf, e1, e2, e3, e4]
  simp only [getTechStack, e1, e4, e5, hstack]

/-- Witness for C8: "VUE LAND" with tag "VueJS" and "vue land" with tag "vuejs". -/
theorem getTechStack_case_insensitive_witness :
    vueUpper ≠ vueLower ∧ getTechStack vueUpper = getTechStack vueLower :=
  ⟨by decide, getTechStack_case_insensitive vueUpper vueLower rfl (by decide) (by decide)
    (by decide) (by decide)⟩

/-! ## Theorems: the listing route -/

theorem compileFilter_ok_constraints (e : Engine) (f : Filter) (test : Community → Bool)
    (h : compileFilter e f = .ok test) (d : Community) (hd : test d = true) :
    ∃ platformTest modeTest levelTest,
      fieldConstraint e f.platform = .ok platformTest ∧
      fieldConstraint e f.location_mode = .ok modeTest ∧
      fieldConstraint e f.activity_level = .ok levelTest ∧
      platformTest d.platform = true ∧ modeTest d.location_mode = true ∧
      levelTest d.activity_level = true := by
  unfold compileFilter at h
  split at h
  · cases h
  · split at h
    · cases h
    · split at h
      · cases h
      · cases h
      · cases h
      · cases h
      · cases h
      · next platformTest modeTest levelTest _ _ hp hm hl =>
        cases h
        simp only [Bool.and_eq_true] at hd
        exact ⟨platformTest, modeTest, levelTest, hp, hm, hl, hd.1.1.2, hd.1.2, hd.2⟩

theorem fieldConstraint_text (e : Engine) (param : Option QueryValue) (v field : String)
    (t : String → Bool) (hv : param = some (QueryValue.str v)) (hne : v ≠ "")
    (hc : fieldConstraint e (if truthyValue param then param else none) = .ok t)
    (h : t field = true) : field = v := by
  subst hv
  have ht : truthyValue (some (QueryValue.str v)) = true := by simp [truthyValue, hne]
  rw [if_pos ht] at hc
  simp only [fieldConstraint, Except.ok.injEq] at hc
  subst hc
  simpa using h

theorem mem_applyLimit (limit : Int) (docs : List Community) (d : Community)
    (h : d ∈ applyLimit limit docs) : d ∈ docs := by
  unfold applyLimit at h
  split at h
  · exact h
  · exact List.mem_of_mem_take h

theorem mem_sortDocs (docs : List Community) (d : Community) (h : d ∈ sortDocs docs) :
    d ∈ docs :=
  (List.perm_insertionSort listOrder docs).subset h

theorem listing_data_matches (e : Engine) (store : List Community) (q : ListQuery)
    (d : Community) (h : d ∈ (listing e store q).data) :
    ∃ test, compileFilter e (buildFilter q) = .ok test ∧ d ∈ store ∧ test d = true := by
  unfold listing at h
  split at h
  · simp [ListingResponse.data] at h
  · next test hc =>
    split at h
    · next page limit _ _ =>
      by_cases hs : (page - 1) * limit < 0
      · simp [hs, ListingResponse.data] at h
      · simp only [hs, if_false, ListingResponse.data] at h
        have h1 := mem_sortDocs _ _ (List.mem_of_mem_drop (mem_applyLimit _ _ _ h))
        rw [List.mem_filter] at h1
        exact ⟨test, hc, h1.1, h1.2⟩
    · simp [ListingResponse.data] at h

/-- C9, counterexample: with the parameter `platform` present and empty the listing
returns a document whose platform is "Slack", not the requested value; and with the
parameter `platform[$ne]=Discord`, which reaches the filter as an operator object, it
returns the same document, whose platform is not what was requested either. -/
theorem listing_empty_platform_counterexample :
    emptyPlatformQuery.platform = some (QueryValue.str "") ∧
    docC ∈ (listing literalEngine sampleStore emptyPlatformQuery).data ∧
    docC.platform ≠ "" ∧
    docC ∈ (listing literalEngine sampleStore notDiscordQuery).data ∧
    notDiscordQuery.platform ≠ some (QueryValue.str docC.platform) := by decide

/-- C9, amended: each of the parameters platform, location_mode and activity_level that
is present as a non-empty text is an exact-equality constraint, and the constraints are
combined conjunctively: every document of the returned data has the requested value in
each such field. -/
theorem listing_equality_constraints (e : Engine) (store : List Community) (q : ListQuery)
    (d : Community) (h : d ∈ (listing e store q).data) :
    (∀ v, q.platform = some (QueryValue.str v) → v ≠ "" → d.platform = v) ∧
    (∀ v, q.location_mode = some (QueryValue.str v) → v ≠ "" → d.location_mode = v) ∧
    (∀ v, q.activity_level = some (QueryValue.str v) → v ≠ "" → d.activity_level = v) := by
  obtain ⟨test, hc, -, ht⟩ := listing_data_matches e store q d h
  obtain ⟨pt, mt, lt, hp, hm, hl, h1, h2, h3⟩ :=
    compileFilter_ok_constraints e (buildFilter q) test hc d ht
  exact ⟨fun v hv hne => fieldConstraint_text e q.platform v d.platform pt hv hne hp h1,
    fun v hv hne => fieldConstraint_text e q.location_mode v d.location_mode mt hv hne hm h2,
    fun v hv hne =>
      fieldConstraint_text e q.activity_level v d.activity_level lt hv hne hl h3⟩

/-- Witness for C9, amended: `platform=Discord&activity_level=High` on the sample store
returns the three documents with these two values, and the first of them has them. -/
theorem listing_equality_constraints_witness :
    (listing literalEngine sampleStore discordHighQuery).data = [docB, docE, docA] ∧
    docB.platform = "Discord" ∧ docB.activity_level = "High" :=
  have h := listing_equality_constraints literalEngine sampleStore discordHighQuery docB
    (by decide)
  ⟨by decide, h.1 "Discord" rfl (by decide), h.2.2 "High" rfl (by decide)⟩

theorem listOrder_total (a b : Community) : listOrder a b ∨ listOrder b a := by
  unfold listOrder
  omega

theorem listOrder_trans (a b c : Community) (h1 : listOrder a b) (h2 : listOrder b c) :
    listOrder a c := by
  unfold listOrder at *
  omega

theorem sortDocs_sorted (docs : List Community) : (sortDocs docs).Sorted listOrder :=
  @List.sorted_insertionSort _ listOrder _ ⟨listOrder_total⟩ ⟨listOrder_trans⟩ docs

theorem applyLimit_pos (limit : Int) (h : 1 ≤ limit) (docs : List Community) :
    applyLimit limit docs = docs.take limit.toNat := by
  unfold applyLimit
  have h0 : limit ≠ 0 := by omega
  have h1 : limit.natAbs = limit.toNat := by omega
  rw [if_neg h0, h1]

/-- C10: for a listing query with page ≥ 1 and limit ≥ 1 whose filter the store accepts,
the response is a success whose data is the segment of length at most limit starting at
offset (page - 1) * limit of the list of all matching documents sorted by member_count
descending and then creation time descending, and whose count is the length of data. -/
theorem listing_page_segment (e : Engine) (store : List Community) (q : ListQuery)
    (page limit : Int) (test : Community → Bool)
    (hpage : pageOf q = some page) (hlimit : limitOf q = some limit)
    (hp : 1 ≤ page) (hl : 1 ≤ limit)
    (hf : compileFilter e (buildFilter q) = .ok test) :
    ∃ (body : ListingBody) (sorted : List Community), listing e store q = .ok body ∧
      sorted.Perm (store.filter test) ∧ sorted.Sorted listOrder ∧
      body.data = (sorted.drop ((page - 1) * limit).toNat).take limit.toNat ∧
      body.data.length ≤ limit.toNat ∧
      body.count = body.data.length := by
  have hskip : ¬ (page - 1) * limit < 0 := by
    have : 0 ≤ (page - 1) * limit := Int.mul_nonneg (by omega) (by omega)
    omega
  refine ⟨
    { success := true
      count := (applyLimit limit
        ((sortDocs (store.filter test)).drop ((page - 1) * limit).toNat)).length
      total := (store.filter test).length
      page := some page
      pages := pagesOf (store.filter test).length limit
      data := applyLimit limit
        ((sortDocs (store.filter test)).drop ((page - 1) * limit).toNat) },
    sortDocs (store.filter test), ?_, List.perm_insertionSort listOrder _,
    sortDocs_sorted _, ?_, ?_, ?_⟩
  · unfold listing
    rw [hf]
    simp only [hpage, hlimit, if_neg hskip]
  · simp only [applyLimit_pos limit hl]
  · simp only [applyLimit_pos limit hl, List.length_take]
    exact Nat.min_le_left _ _
  · rfl

/-- Witness for C10: the second page of size 2 of the Discord communities of the sample
store holds the third and fourth of them in sorted order. -/
theorem listing_page_segment_witness :
    (listing literalEngine sampleStore discordSecondPage).data = [docA, docD] ∧
    ∃ (body : ListingBody) (sorted : List Community), listing literalEngine sampleStore discordSecondPage = .ok body ∧
      sorted.Perm (sampleStore.filter (fun d => d.platform == "Discord")) ∧
      sorted.Sorted listOrder ∧
      body.data = (sorted.drop ((2 - 1) * 2 : Int).toNat).take (2 : Int).toNat ∧
      body.data.length ≤ (2 : Int).toNat ∧
      body.count = body.data.length :=
  ⟨by decide,
    listing_page_segment literalEngine sampleStore discordSecondPage 2 2
      (fun d => d.platform == "Discord") (by decide) (by decide) (by decide) (by decide)
      (by simp [compileFilter, buildFilter, discordSecondPage, truthyValue, compileOpt,
        fieldConstraint, searchField, stackPattern, stackThrown])⟩

theorem listing_ok_inv (e : Engine) (store : List Community) (q : ListQuery)
    (body : ListingBody) (h : listing e store q = .ok body) :
    ∃ test page limit, compileFilter e (buildFilter q) = .ok test ∧
      pageOf q = some page ∧ limitOf q = some limit ∧
      body.total = (store.filter test).length ∧
      body.pages = pagesOf (store.filter test).length limit ∧
      body.page = some page := by
  unfold listing at h
  split at h
  · cases h
  · next test hc =>
    split at h
    · next page limit hp hl =>
      by_cases hs : (page - 1) * limit < 0
      · simp [hs] at h
      · simp only [hs, if_false, ListingResponse.ok.injEq] at h
        subst h
        exact ⟨test, page, limit, hc, hp, hl, rfl, rfl, rfl⟩
    · cases h

theorem neg_fdiv_neg_eq_ceil (t : Nat) (l : Int) (hl : 1 ≤ l) :
    -(Int.fdiv (-(t : Int)) l) = ⌈(t : ℚ) / (l : ℚ)⌉ := by
  rw [Int.fdiv_eq_ediv _ (by omega : (0 : Int) ≤ l)]
  obtain ⟨n, rfl⟩ := Int.eq_ofNat_of_zero_le (by omega : (0 : Int) ≤ l)
  have h := Rat.floor_intCast_div_natCast (-(t : Int)) n
  have h2 : ((-(t : Int) : Int) : ℚ) / (n : ℚ) = -((t : ℚ) / (n : ℚ)) := by
    push_cast
    ring
  rw [h2, Int.floor_neg] at h
  simp only [Int.cast_natCast]
  omega

theorem neg_fdiv_neg_bounds (t : Nat) (l : Int) (hl : 1 ≤ l) :
    (t : Int) ≤ -(Int.fdiv (-(t : Int)) l) * l ∧ (-(Int.fdiv (-(t : Int)) l) - 1) * l < t := by
  rw [Int.fdiv_eq_ediv _ (by omega : (0 : Int) ≤ l)]
  have h1 := Int.ediv_add_emod (-(t : Int)) l
  have h2 := Int.emod_nonneg (-(t : Int)) (by omega : l ≠ 0)
  have h3 := Int.emod_lt_of_pos (-(t : Int)) (by omega : 0 < l)
  constructor <;> nlinarith

/-- C11: for a listing query with limit ≥ 1, the pages value of the response is the
ceiling of total/limit: it is 0 when total is 0, and otherwise
pages * limit ≥ total > (pages - 1) * limit. -/
theorem listing_pages_ceiling (e : Engine) (store : List Community) (q : ListQuery)
    (body : ListingBody) (limit : Int)
    (hlimit : limitOf q = some limit) (hl : 1 ≤ limit)
    (h : listing e store q = .ok body) :
    body.pages = some ⌈(body.total : ℚ) / (limit : ℚ)⌉ ∧
    (body.total = 0 → body.pages = some 0) ∧
    (0 < body.total → ∃ pages : Int, body.pages = some pages ∧
      (body.total : Int) ≤ pages * limit ∧ (pages - 1) * limit < (body.total : Int)) := by
  obtain ⟨test, page, limit', -, -, hl', ht, hp, -⟩ := listing_ok_inv e store q body h
  rw [hlimit] at hl'
  cases hl'
  have h0 : limit ≠ 0 := by omega
  have hpages : body.pages = some (-(Int.fdiv (-(body.total : Int)) limit)) := by
    rw [hp, ht, pagesOf, if_neg h0]
  refine ⟨?_, ?_, ?_⟩
  · rw [hpages, neg_fdiv_neg_eq_ceil body.total limit hl]
  · intro hz
    rw [hpages, hz]
    simp [Int.fdiv_eq_ediv _ (by omega : (0 : Int) ≤ limit)]
  · intro _
    exact ⟨_, hpages, neg_fdiv_neg_bounds body.total limit hl⟩

/-- Witness for C11: four Discord communities in pages of three make two pages. -/
theorem listing_pages_ceiling_witness :
    ∃ body, listing literalEngine sampleStore discordByThree = .ok body ∧
      body.total = 4 ∧ body.pages = some 2 ∧
      body.pages = some ⌈(body.total : ℚ) / ((3 : Int) : ℚ)⌉ :=
  ⟨_, rfl, by decide, by decide,
    (listing_pages_ceiling literalEngine sampleStore discordByThree _ 3 (by decide)
      (by decide) rfl).1⟩

/-- C12: the total of a listing response is the number of documents of the store that
satisfy the filter predicate, and two queries with the same filter parameters get the
same total whatever their page and limit are. -/
theorem listing_total_count (e : Engine) (store : List Community) (q : ListQuery)
    (body : ListingBody) (h : listing e store q = .ok body) :
    (∃ test, compileFilter e (buildFilter q) = .ok test ∧
      body.total = store.countP (fun d => test d) ∧
      body.total = (store.filter test).length) ∧
    (∀ (q2 : ListQuery) (body2 : ListingBody),
      q2.search = q.search → q2.tech_stack = q.tech_stack → q2.platform = q.platform →
      q2.location_mode = q.location_mode → q2.activity_level = q.activity_level →
      listing e store q2 = .ok body2 → body2.total = body.total) := by
  obtain ⟨test, page, limit, hc, -, -, ht, -, -⟩ := listing_ok_inv e store q body h
  refine ⟨⟨test, hc, ?_, ht⟩, ?_⟩
  · rw [ht, List.countP_eq_length_filter]
  · intro q2 body2 h1 h2 h3 h4 h5 hq2
    obtain ⟨test2, _, _, hc2, -, -, ht2, -, -⟩ := listing_ok_inv e store q2 body2 hq2
    have hf : buildFilter q2 = buildFilter q := by
      simp only [buildFilter, h1, h2, h3, h4, h5]
    rw [hf, hc] at hc2
    cases hc2
    rw [ht, ht2]

/-- Witness for C12: the Discord communities of the sample store are four, listed by
three or by one. -/
theorem listing_total_count_witness :
    ∃ body body2, listing literalEngine sampleStore discordByThree = .ok body ∧
      listing literalEngine sampleStore discordByOne = .ok body2 ∧
      body.total = 4 ∧ body2.total = body.total :=
  ⟨_, _, rfl, rfl, by decide,
    (listing_total_count literalEngine sampleStore discordByThree _ rfl).2
      discordByOne _ rfl rfl rfl rfl rfl rfl⟩

/-- C13, evaluation at the failing input: with the search text `.` the listing returns
every document of the sample store although no title, description or tag of the store
contains the character `.`; with the search text `(` the route answers with a server
error. -/
theorem listing_search_pattern_injection :
    (listing fragmentEngine sampleStore dotSearch).data = [docC, docB, docE, docA, docD] ∧
    (∀ d ∈ sampleStore,
      includes (toLowerCase d.title) (toLowerCase ".") = false ∧
      includes (toLowerCase d.description) (toLowerCase ".") = false ∧
      d.tags.any (fun t => includes (toLowerCase t) (toLowerCase ".")) = false) ∧
    listing fragmentEngine sampleStore parenSearch =
      .serverError "Invalid regular expression: /(/" := by decide

theorem includesList_nil (l : List Char) : includesList l [] = true := by
  cases l <;> simp [includesList]

theorem regexSpecials_backslash : regexSpecials.contains '\\' = true := by decide

theorem regexSpecials_dot : regexSpecials.contains '.' = true := by decide

theorem literalOfAux_escape (t : List Char) :
    literalOfAux false
      (t.flatMap (fun c => if regexSpecials.contains c then ['\\', c] else [c])) = some t := by
  induction t with
  | nil => rfl
  | cons c cs ih =>
    rw [List.flatMap_cons]
    by_cases hc : regexSpecials.contains c = true
    · simp only [hc, if_true, List.cons_append, List.nil_append, literalOfAux, ih,
        Option.map_some']
    · have hne : c ≠ '\\' := fun h => hc (h ▸ regexSpecials_backslash)
      simp only [hc, if_false, List.cons_append, List.nil_append, literalOfAux, hne, ih,
        Option.map_some', Bool.false_eq_true]

theorem literalOf_escapeRegExp (t : String) : literalOf (escapeRegExp t) = some t := by
  simp only [literalOf, escapeRegExp, literalOfAux_escape, Option.map_some']

theorem parseAtoms_of_literal :
    ∀ (l : List Char) (b : Bool) (lit : List Char), literalOfAux b l = some lit →
      parseAtomsAux b l = some (lit.map Atom.lit)
  | [], false, lit, h => by
    simp only [literalOfAux, Option.some.injEq] at h
    subst h
    rfl
  | [], true, lit, h => by simp [literalOfAux] at h
  | c :: rest, true, lit, h => by
    simp only [literalOfAux] at h
    split at h
    · next hc =>
      cases hr : literalOfAux false rest with
      | none => simp [hr] at h
      | some l =>
        simp only [hr, Option.map_some', Option.some.injEq] at h
        subst h
        simp only [parseAtomsAux, hc, if_true, parseAtoms_of_literal rest false l hr,
          Option.map_some', List.map_cons]
    · cases h
  | c :: rest, false, lit, h => by
    simp only [literalOfAux] at h
    split at h
    · next hc =>
      simp only [parseAtomsAux, hc, if_true]
      exact parseAtoms_of_literal rest true lit h
    · next hc =>
      split at h
      · cases h
      · next hs =>
        have hdot : c ≠ '.' := fun hd => hs (hd ▸ regexSpecials_dot)
        cases hr : literalOfAux false rest with
        | none => simp [hr] at h
        | some l =>
          simp only [hr, Option.map_some', Option.some.injEq] at h
          subst h
          simp only [parseAtomsAux, hc, hdot, hs, if_false,
            parseAtoms_of_literal rest false l hr, Option.map_some', List.map_cons,
            Bool.false_eq_true]

theorem matchHere_literal :
    ∀ (lit xs : List Char),
      matchHere (lit.map Atom.lit) xs = (lit.map Char.toLower).isPrefixOf (xs.map Char.toLower)
  | [], _ => by simp [matchHere]
  | _ :: _, [] => by simp [matchHere, List.isPrefixOf]
  | c :: cs, x :: xs => by
    simp only [List.map_cons, matchHere, List.isPrefixOf, matchHere_literal cs xs]

theorem searchAtoms_literal (lit : List Char) :
    ∀ xs : List Char,
      searchAtoms (lit.map Atom.lit) xs =
        includesList (xs.map Char.toLower) (lit.map Char.toLower)
  | [] => by
    cases lit <;> simp [searchAtoms, matchHere, includesList]
  | x :: xs => by
    simp only [searchAtoms, List.map_cons, includesList, matchHere_literal,
      searchAtoms_literal lit xs]

theorem fragmentEngine_readsLiterals : fragmentEngine.readsLiterals := by
  intro p lit h
  have h1 : literalOfAux false p.data = some lit.data := by
    simp only [literalOf, Option.map_eq_some'] at h
    obtain ⟨l, hl, he⟩ := h
    rw [hl, ← he]
  refine ⟨fun subject => searchAtoms (lit.data.map Atom.lit) subject.data, ?_, ?_⟩
  · simp only [fragmentEngine, parseAtoms_of_literal p.data false lit.data h1]
  · intro s
    simp only [searchAtoms_literal, includes, toLowerCase]

/-- C14: the listing puts a backslash before every special character of the tech_stack
parameter `t` and leaves the other characters unchanged, so that the pattern it builds
is a literal pattern that denotes `t` itself; for an engine that respects literal
patterns, a document satisfies the tech_stack constraint if and only if its tech_stack
contains `t` as a literal text, ignoring letter case. -/
theorem listing_tech_stack_literal (e : Engine) (he : e.readsLiterals) (t : String) :
    (escapeRegExp t).data =
      t.data.flatMap (fun c => if c ∈ regexSpecials then ['\\', c] else [c]) ∧
    literalOf (escapeRegExp t) = some t ∧
    ∃ test, compileFilter e (buildFilter { tech_stack := some (QueryValue.str t) }) =
        .ok test ∧
      ∀ d, test d = true ↔ includes (toLowerCase d.tech_stack) (toLowerCase t) = true := by
  refine ⟨?_, literalOf_escapeRegExp t, ?_⟩
  · simp [escapeRegExp]
  · by_cases ht : t = ""
    · subst ht
      refine ⟨fun _ => true, ?_, ?_⟩
      · simp [compileFilter, buildFilter, truthyValue, compileOpt, fieldConstraint,
          searchField, stackPattern, stackThrown]
      · intro d
        simp [includes, toLowerCase, includesList_nil]
    · obtain ⟨test, hc, hs⟩ := he (escapeRegExp t) t (literalOf_escapeRegExp t)
      refine ⟨fun d => test d.tech_stack, ?_, ?_⟩
      · simp [compileFilter, buildFilter, truthyValue, compileOpt, fieldConstraint,
          searchField, stackPattern, stackThrown, ht, hc]
      · intro d
        show test d.tech_stack = true ↔ _
        rw [hs]

/-- Witness for C14: the parameter "Node.js" becomes the pattern `Node\.js`, and of two
communities with tech_stack "Node.js" and "NodeXjs" only the first is listed. -/
theorem listing_tech_stack_literal_witness :
    escapeRegExp "Node.js" = "Node\\.js" ∧
    (listing fragmentEngine [docNode, docNodeX] nodeStackQuery).data = [docNode] ∧
    literalOf (escapeRegExp "Node.js") = some "Node.js" :=
  ⟨by decide, by decide,
    (listing_tech_stack_literal fragmentEngine fragmentEngine_readsLiterals "Node.js").2.1⟩

/-! ## Theorems: the detail route -/

theorem find?_of_distinct_ids (store : List Community) (d : Community)
    (hd : d ∈ store) (hdist : store.Pairwise (fun a b => a._id ≠ b._id)) :
    store.find? (fun x => x._id == d._id) = some d := by
  induction store with
  | nil => cases hd
  | cons a l ih =>
    rw [List.pairwise_cons] at hdist
    rcases List.mem_cons.mp hd with h | h
    · subst h
      simp [List.find?]
    · have hne : a._id ≠ d._id := hdist.1 d h
      have hb : (a._id == d._id) = false := by simpa using hne
      simp only [List.find?, hb]
      exact ih h hdist.2

/-- C15: for a well-formed identifier that no document of the store has, the detail
route answers with status 404, success false and the message "Community not found"; a
response with success true always carries a document; and for the identifier of a
document of a store with distinct identifiers the response is a success with exactly
that document. -/
theorem detail_found_or_not_found (store : List Community) (id : String) (oid : Nat)
    (hid : parseObjectId id = some oid) :
    ((∀ d ∈ store, d._id ≠ oid) →
      detail store id =
        { status := 404, success := false, message := some "Community not found" }) ∧
    ((detail store id).success = true → (detail store id).data ≠ none) ∧
    (∀ d ∈ store, d._id = oid → store.Pairwise (fun a b => a._id ≠ b._id) →
      (detail store id).status = 200 ∧ (detail store id).success = true ∧
      (detail store id).data = some d) := by
  refine ⟨?_, ?_, ?_⟩
  · intro habs
    have hf : store.find? (fun d => d._id == oid) = none := by
      rw [List.find?_eq_none]
      intro d hd
      simpa using habs d hd
    simp only [detail, hid, hf]
  · simp only [detail, hid]
    cases store.find? (fun d => d._id == oid) <;> simp
  · intro d hd hdo hdist
    have hf := find?_of_distinct_ids store d hd hdist
    rw [hdo] at hf
    simp only [detail, hid, hf, and_self]

/-- Witness for C15: an absent identifier gets the 404 response, the identifier of the
first document of the store gets that document. -/
theorem detail_found_or_not_found_witness :
    detail relatedStore absentId =
        { status := 404, success := false, message := some "Community not found" } ∧
      (detail relatedStore relAId).data = some relA :=
  ⟨(detail_found_or_not_found relatedStore absentId 255 (by decide)).1 (by decide),
    ((detail_found_or_not_found relatedStore relAId 11 (by decide)).2.2 relA (by decide)
      (by decide) (by decide)).2.2⟩

/-- C16: the related list of a document found by the detail route has at most three
documents, does not contain the document itself, and each of its documents is another
document of the store with the same tech_stack or with a tag in common. -/
theorem detail_related (store : List Community) (id : String) (r : Community)
    (h : (detail store id).data = some r) :
    (detail store id).related.length ≤ 3 ∧
    r ∉ (detail store id).related ∧
    ∀ x ∈ (detail store id).related,
      x ∈ store ∧ x._id ≠ r._id ∧
        (x.tech_stack = r.tech_stack ∨ ∃ t ∈ x.tags, t ∈ r.tags) := by
  have hrel : (detail store id).related = relatedOf store r := by
    unfold detail at h ⊢
    cases hp : parseObjectId id with
    | none => simp [hp] at h
    | some oid =>
      simp only [hp] at h ⊢
      cases hf : store.find? (fun d => d._id == oid) with
      | none => simp [hf] at h
      | some c =>
        simp only [hf, Option.some.injEq] at h ⊢
        rw [h]
  have hmem : ∀ x ∈ relatedOf store r,
      x ∈ store ∧ x._id ≠ r._id ∧
        (x.tech_stack = r.tech_stack ∨ ∃ t ∈ x.tags, t ∈ r.tags) := by
    intro x hx
    have hx2 := List.mem_of_mem_take hx
    rw [List.mem_filter] at hx2
    obtain ⟨hs, hc⟩ := hx2
    simp only [Bool.and_eq_true, bne_iff_ne, ne_eq, Bool.or_eq_true, beq_iff_eq,
      List.any_eq_true, List.contains_eq_any_beq] at hc
    refine ⟨hs, hc.1, ?_⟩
    rcases hc.2 with h1 | ⟨t, ht, u, hu, htu⟩
    · exact Or.inl h1
    · exact Or.inr ⟨t, ht, by rw [htu]; exact hu⟩
  rw [hrel]
  refine ⟨?_, ?_, hmem⟩
  · simp only [relatedOf, List.length_take]
    exact Nat.min_le_left _ _
  · intro hr
    exact (hmem r hr).2.1 rfl

/-- Witness for C16: the first document of the store has four related documents and
gets the first three of them. -/
theorem detail_related_witness :
    (detail relatedStore relAId).related = [relB, relC, relE] ∧
      (detail relatedStore relAId).related.length ≤ 3 ∧
      relA ∉ (detail relatedStore relAId).related :=
  have h := detail_related relatedStore relAId relA (by decide)
  ⟨by decide, h.1, h.2.1⟩

/-! ## Theorems: the creation route -/

theorem validationErrors_fields (b : CreateBody) :
    (validationErrors b).map FieldError.field =
      (if isBlank b.title then ["title"] else []) ++
      (if isBlank b.description then ["description"] else []) ++
      (if isBlank b.tech_stack then ["tech_stack"] else []) ++
      (if isBlank b.platform then ["platform"] else []) ++
      (if isBlank b.location_mode then ["location_mode"] else []) ++
      (if isBlank b.joining_link then ["joining_link"] else []) := by
  simp only [validationErrors, requiredFields, List.filterMap_cons, List.filterMap_nil]
  cases isBlank b.title <;> cases isBlank b.description <;> cases isBlank b.tech_stack <;>
    cases isBlank b.platform <;> cases isBlank b.location_mode <;>
    cases isBlank b.joining_link <;> rfl

theorem createCommunity_of_errors (env : CreateEnv) (store : List Community) (b : CreateBody)
    (h : (validationErrors b).isEmpty = false) :
    createCommunity env store b =
      ({ status := 400, success := false, message := "Validation failed",
         errors := validationErrors b }, store) := by
  simp [createCommunity, h]

theorem validationErrors_isEmpty (b : CreateBody) :
    (validationErrors b).isEmpty =
      (!isBlank b.title && !isBlank b.description && !isBlank b.tech_stack &&
        !isBlank b.platform && !isBlank b.location_mode && !isBlank b.joining_link) := by
  have h := validationErrors_fields b
  have hl : (validationErrors b).isEmpty = ((validationErrors b).map FieldError.field).isEmpty := by
    cases validationErrors b <;> rfl
  rw [hl, h]
  cases isBlank b.title <;> cases isBlank b.description <;> cases isBlank b.tech_stack <;>
    cases isBlank b.platform <;> cases isBlank b.location_mode <;>
    cases isBlank b.joining_link <;> rfl

/-- C17: a creation request in which at least one of title, description, tech_stack,
platform, location_mode, joining_link is absent or empty after trimming is rejected
with status 400 and "Validation failed"; the error list names each such field and no
other field. -/
theorem create_required_fields (env : CreateEnv) (store : List Community) (b : CreateBody)
    (h : isBlank b.title = true ∨ isBlank b.description = true ∨
      isBlank b.tech_stack = true ∨ isBlank b.platform = true ∨
      isBlank b.location_mode = true ∨ isBlank b.joining_link = true) :
    (createCommunity env store b).1.status = 400 ∧
    (createCommunity env store b).1.success = false ∧
    (createCommunity env store b).1.message = "Validation failed" ∧
    (∀ name : String,
      name ∈ (createCommunity env store b).1.errors.map FieldError.field ↔
        (name = "title" ∧ isBlank b.title = true) ∨
        (name = "description" ∧ isBlank b.description = true) ∨
        (name = "tech_stack" ∧ isBlank b.tech_stack = true) ∨
        (name = "platform" ∧ isBlank b.platform = true) ∨
        (name = "location_mode" ∧ isBlank b.location_mode = true) ∨
        (name = "joining_link" ∧ isBlank b.joining_link = true)) := by
  have he : (validationErrors b).isEmpty = false := by
    rw [validationErrors_isEmpty]
    rcases h with h | h | h | h | h | h <;> simp [h]
  rw [createCommunity_of_errors env store b he]
  refine ⟨rfl, rfl, rfl, ?_⟩
  intro name
  simp only [validationErrors_fields]
  cases isBlank b.title <;> cases isBlank b.description <;> cases isBlank b.tech_stack <;>
    cases isBlank b.platform <;> cases isBlank b.location_mode <;>
    cases isBlank b.joining_link <;> simp

/-- Witness for C17: a request with a blank title and without joining_link gets the
two entries "title" and "joining_link". -/
theorem create_required_fields_witness :
    (createCommunity sampleEnv sampleStore missingLinkBody).1.errors =
        [⟨"title", "Title is required"⟩, ⟨"joining_link", "Joining link is required"⟩] ∧
      (createCommunity sampleEnv sampleStore missingLinkBody).1.status = 400 :=
  ⟨by decide,
    (create_required_fields sampleEnv sampleStore missingLinkBody (Or.inl (by decide))).1⟩

/-- C18: a creation request that is rejected leaves the store as it was and carries no
document in its response; in particular a request without joining_link is rejected
with status 400 and nothing is written. -/
theorem create_rejected_store_unchanged (env : CreateEnv) (store : List Community)
    (b : CreateBody) :
    ((createCommunity env store b).1.success = false →
      (createCommunity env store b).2 = store ∧ (createCommunity env store b).1.data = none) ∧
    ((createCommunity env store b).1.status ≠ 201 → (createCommunity env store b).2 = store) ∧
    (isBlank b.joining_link = true →
      (createCommunity env store b).1.status = 400 ∧ (createCommunity env store b).2 = store) := by
  refine ⟨?_, ?_, ?_⟩
  · unfold createCommunity
    simp only
    split
    · intro _; exact ⟨rfl, rfl⟩
    · split
      · intro _; exact ⟨rfl, rfl⟩
      · split
        · intro _; exact ⟨rfl, rfl⟩
        · split
          · intro _; exact ⟨rfl, rfl⟩
          · intro hs; simp at hs
  · unfold createCommunity
    simp only
    split
    · intro _; rfl
    · split
      · intro _; rfl
      · split
        · intro _; rfl
        · split
          · intro _; rfl
          · intro hs; simp at hs
  · intro hj
    have he : (validationErrors b).isEmpty = false := by
      rw [validationErrors_isEmpty]
      simp [hj]
    rw [createCommunity_of_errors env store b he]
    exact ⟨rfl, rfl⟩

/-- Witness for C18: the request without joining_link leaves the sample store as it
was. -/
theorem create_rejected_store_unchanged_witness :
    (createCommunity sampleEnv sampleStore missingLinkBody).1.status = 400 ∧
      (createCommunity sampleEnv sampleStore missingLinkBody).2 = sampleStore :=
  (create_rejected_store_unchanged sampleEnv sampleStore missingLinkBody).2.2 (by decide)

/-- C19: a creation request whose six required fields are non-empty after trimming and
whose joining_link does not parse as a URL is rejected with status 400 and the message
"Invalid joining link URL format", nothing is written, and the message differs from
the ones of a request without joining_link ("Validation failed", with the entry
"Joining link is required"). -/
theorem create_invalid_link (env : CreateEnv) (store : List Community) (b : CreateBody)
    (h1 : isBlank b.title = false) (h2 : isBlank b.description = false)
    (h3 : isBlank b.tech_stack = false) (h4 : isBlank b.platform = false)
    (h5 : isBlank b.location_mode = false) (h6 : isBlank b.joining_link = false)
    (hurl : env.validURL (trim (orEmpty b.joining_link)) = false) :
    createCommunity env store b =
      ({ status := 400, success := false, message := "Invalid joining link URL format" },
        store) ∧
    (∀ b2 : CreateBody, isBlank b2.joining_link = true →
      (createCommunity env store b2).1.message = "Validation failed" ∧
      (⟨"joining_link", "Joining link is required"⟩ : FieldError) ∈
        (createCommunity env store b2).1.errors ∧
      (createCommunity env store b2).1.message ≠ (createCommunity env store b).1.message) := by
  have he : (validationErrors b).isEmpty = true := by
    rw [validationErrors_isEmpty]
    simp [h1, h2, h3, h4, h5, h6]
  have hb : createCommunity env store b =
      ({ status := 400, success := false, message := "Invalid joining link URL format" },
        store) := by
    simp [createCommunity, he, communityDataOf, hurl]
  refine ⟨hb, ?_⟩
  intro b2 hj
  have he2 : (validationErrors b2).isEmpty = false := by
    rw [validationErrors_isEmpty]
    simp [hj]
  rw [createCommunity_of_errors env store b2 he2, hb]
  refine ⟨rfl, ?_, ?_⟩
  · show _ ∈ validationErrors b2
    rw [validationErrors, List.mem_filterMap]
    refine ⟨("joining_link", b2.joining_link, "Joining link is required"), ?_, ?_⟩
    · simp [requiredFields]
    · simp [hj]
  · show "Validation failed" ≠ "Invalid joining link URL format"
    decide

/-- Witness for C19: the joining_link "not a url". -/
theorem create_invalid_link_witness :
    createCommunity sampleEnv sampleStore badLinkBody =
      ({ status := 400, success := false, message := "Invalid joining link URL format" },
        sampleStore) :=
  (create_invalid_link sampleEnv sampleStore badLinkBody (by decide) (by decide) (by decide)
    (by decide) (by decide) (by decide) (by decide)).1

/-- C20, evaluation at the failing input: the tags `[" react ", ""]` sent as an array
are stored as they are, with the white space and the empty tag, while the same tags
joined by commas are stored as `["react"]`, the trimmed non-empty elements. -/
theorem create_tags_array_not_normalized :
    normalizeTags (some (TagsInput.array rawTags)) = [" react ", ""] ∧
    normalizeTags (some (TagsInput.text (join "," rawTags))) = ["react"] ∧
    (rawTags.map trim).filter (fun t => t != "") = ["react"] ∧
    (createCommunity sampleEnv [] arrayTagsBody).2.map Community.tags = [[" react ", ""]] ∧
    (createCommunity sampleEnv [] textTagsBody).2.map Community.tags = [["react"]] := by
  decide

/-- C21, evaluation at the failing input: the member_count "-5" of an otherwise valid
request is stored as -5; an absent member_count and one that is not a number give 0. -/
theorem create_member_count_negative :
    memberCountOf (some "-5") = -5 ∧
    (createCommunity sampleEnv [] negativeCountBody).1.status = 201 ∧
    (createCommunity sampleEnv [] negativeCountBody).2.map Community.member_count = [-5] ∧
    memberCountOf none = 0 ∧
    memberCountOf (some "abc") = 0 := by decide

theorem schemaErrors_communityDataOf (env : CreateEnv) (b : CreateBody)
    (h1 : isBlank b.title = false) (h2 : isBlank b.description = false)
    (h3 : isBlank b.tech_stack = false) (h4 : isBlank b.platform = false)
    (h5 : isBlank b.location_mode = false) (h6 : isBlank b.joining_link = false) :
    schemaErrors (communityDataOf env b) =
      enumError "platform" (trim (orEmpty b.platform)) platformEnum ++
      enumError "location_mode" (trim (orEmpty b.location_mode)) locationModeEnum ++
      enumError "activity_level" (activityLevelOf b.activity_level) activityLevelEnum := by
  simp only [isBlank] at h1 h2 h3 h4 h5 h6
  simp [schemaErrors, communityDataOf, requiredError, h1, h2, h3, h4, h5, h6]

theorem validationErrors_isEmpty_of_nonblank (b : CreateBody)
    (h1 : isBlank b.title = false) (h2 : isBlank b.description = false)
    (h3 : isBlank b.tech_stack = false) (h4 : isBlank b.platform = false)
    (h5 : isBlank b.location_mode = false) (h6 : isBlank b.joining_link = false) :
    (validationErrors b).isEmpty = true := by
  rw [validationErrors_isEmpty]
  simp [h1, h2, h3, h4, h5, h6]

/-- C22, counterexample: an otherwise valid request with the activity_level "Extreme",
a value outside the five levels, creates no record: it is rejected with status 400 and
the store stays as it was. -/
theorem create_invalid_activity_counterexample :
    (createCommunity sampleEnv sampleStore goodBody).1.status = 201 ∧
    activityLevelEnum.contains "Extreme" = false ∧
    createCommunity sampleEnv sampleStore extremeActivityBody =
      ({ status := 400, success := false, message := "Validation failed",
         errors := [⟨"activity_level",
           "`Extreme` is not a valid enum value for path `activity_level`."⟩] },
        sampleStore) := by decide

/-- C22, amended: an otherwise valid creation request whose activity_level is absent or
empty creates a record with activity_level "Medium"; one whose activity_level is a
non-empty value outside the five enumerated levels is rejected with status 400 and a
validation error for the field activity_level, and no record is created. -/
theorem create_activity_level (env : CreateEnv) (store : List Community) (b : CreateBody)
    (h1 : isBlank b.title = false) (h2 : isBlank b.description = false)
    (h3 : isBlank b.tech_stack = false) (h4 : isBlank b.platform = false)
    (h5 : isBlank b.location_mode = false) (h6 : isBlank b.joining_link = false)
    (hurl : env.validURL (trim (orEmpty b.joining_link)) = true)
    (hplat : platformEnum.contains (trim (orEmpty b.platform)) = true)
    (hloc : locationModeEnum.contains (trim (orEmpty b.location_mode)) = true)
    (hstore : env.insertFault = none) :
    (b.activity_level = none ∨ b.activity_level = some "" →
      (createCommunity env store b).1.status = 201 ∧
      (∃ d, (createCommunity env store b).1.data = some d ∧ d.activity_level = "Medium" ∧
        (createCommunity env store b).2 = store ++ [d])) ∧
    (∀ v, b.activity_level = some v → v ≠ "" → activityLevelEnum.contains v = false →
      (createCommunity env store b).1.status = 400 ∧
      (createCommunity env store b).1.message = "Validation failed" ∧
      (createCommunity env store b).1.errors.map FieldError.field = ["activity_level"] ∧
      (createCommunity env store b).2 = store) := by
  have he := validationErrors_isEmpty_of_nonblank b h1 h2 h3 h4 h5 h6
  have hs := schemaErrors_communityDataOf env b h1 h2 h3 h4 h5 h6
  have hj : env.validURL (communityDataOf env b).joining_link = true := hurl
  constructor
  · intro hact
    have ha : activityLevelOf b.activity_level = "Medium" := by
      rcases hact with h | h <;> simp [h, activityLevelOf]
    have hs0 : (schemaErrors (communityDataOf env b)).isEmpty = true := by
      rw [hs, ha]
      simp only [enumError, hplat, hloc, if_true, List.append_nil]
      decide
    have hc : createCommunity env store b =
        ({ status := 201, success := true, message := "Community created successfully",
           data := some (communityDataOf env b) }, store ++ [communityDataOf env b]) := by
      simp [createCommunity, he, hj, hs0, hstore]
    rw [hc]
    refine ⟨rfl, communityDataOf env b, rfl, ?_, rfl⟩
    simp only [communityDataOf, ha]
  · intro v hv hne hout
    have ha : activityLevelOf b.activity_level = v := by
      simp [hv, activityLevelOf, hne]
    have hs1 : schemaErrors (communityDataOf env b) =
        [⟨"activity_level",
          "`" ++ v ++ "` is not a valid enum value for path `" ++ "activity_level" ++ "`."⟩] := by
      rw [hs, ha]
      simp only [enumError, hplat, hloc, hout, if_true, Bool.false_eq_true, if_false,
        List.nil_append]
    have hc : createCommunity env store b =
        ({ status := 400, success := false, message := "Validation failed",
           errors := schemaErrors (communityDataOf env b) }, store) := by
      simp [createCommunity, he, hj, hs1]
    rw [hc, hs1]
    exact ⟨rfl, rfl, rfl, rfl⟩

/-- Witness for C22, amended: the complete request without activity_level creates a
record with activity_level "Medium". -/
theorem create_activity_level_witness :
    (createCommunity sampleEnv sampleStore goodBody).1.status = 201 ∧
      ∃ d, (createCommunity sampleEnv sampleStore goodBody).1.data = some d ∧
        d.activity_level = "Medium" ∧
        (createCommunity sampleEnv sampleStore goodBody).2 = sampleStore ++ [d] :=
  (create_activity_level sampleEnv sampleStore goodBody (by decide) (by decide) (by decide)
    (by decide) (by decide) (by decide) (by decide) (by decide) (by decide) rfl).1
    (Or.inl rfl)

/-! ## Theorems: the store invariant and the featured route -/

theorem dropWhile_rdropWhile_dropWhile {α : Type} (p : α → Bool) (l : List α) :
    List.dropWhile p (List.rdropWhile p (List.dropWhile p l)) =
      List.rdropWhile p (List.dropWhile p l) := by
  rw [List.dropWhile_eq_self_iff]
  intro hl
  have hpre : List.rdropWhile p (List.dropWhile p l) <+: List.dropWhile p l :=
    List.rdropWhile_prefix p _
  have hlen : 0 < (List.dropWhile p l).length := lt_of_lt_of_le hl hpre.length_le
  have h0 := List.dropWhile_get_zero_not p l hlen
  obtain ⟨t, ht⟩ := hpre
  have heq : (List.rdropWhile p (List.dropWhile p l)).get ⟨0, hl⟩ =
      (List.dropWhile p l).get ⟨0, hlen⟩ := by
    simp only [List.get_eq_getElem]
    have hidx : 0 < (List.rdropWhile p (List.dropWhile p l) ++ t).length := by
      rw [ht]
      exact hlen
    have : (List.dropWhile p l)[0] =
        (List.rdropWhile p (List.dropWhile p l) ++ t).get ⟨0, hidx⟩ := by
      simp only [List.get_eq_getElem]
      congr 1
      exact ht.symm
    rw [this, List.get_eq_getElem, List.getElem_append_left]
  rw [heq]
  exact h0

theorem trim_data (s : String) :
    (trim s).data = List.rdropWhile isWhiteSpace (List.dropWhile isWhiteSpace s.data) := rfl

theorem trim_idem (s : String) : trim (trim s) = trim s := by
  have h : (trim (trim s)).data = (trim s).data := by
    rw [trim_data (trim s), trim_data s, dropWhile_rdropWhile_dropWhile,
      List.rdropWhile_idempotent]
  exact String.ext h

theorem create_store_cases (env : CreateEnv) (store : List Community) (b : CreateBody) :
    (createCommunity env store b).2 = store ∨
      ((validationErrors b).isEmpty = true ∧
        (schemaErrors (communityDataOf env b)).isEmpty = true ∧
        (createCommunity env store b).2 = store ++ [communityDataOf env b]) := by
  unfold createCommunity
  simp only
  split
  · exact Or.inl rfl
  · next he =>
    split
    · exact Or.inl rfl
    · split
      · exact Or.inl rfl
      · next hs =>
        split
        · exact Or.inl rfl
        · refine Or.inr ⟨?_, ?_, rfl⟩
          · simpa using he
          · simpa using hs

theorem isEmpty_append_eq {α : Type} (l₁ l₂ : List α) :
    (l₁ ++ l₂).isEmpty = (l₁.isEmpty && l₂.isEmpty) := by
  cases l₁ <;> cases l₂ <;> rfl

theorem enumError_isEmpty (path value : String) (allowed : List String) :
    (enumError path value allowed).isEmpty = allowed.contains value := by
  unfold enumError
  cases h : allowed.contains value <;> simp

theorem wellFormed_communityDataOf (env : CreateEnv) (b : CreateBody)
    (he : (validationErrors b).isEmpty = true)
    (hs : (schemaErrors (communityDataOf env b)).isEmpty = true) :
    wellFormed (communityDataOf env b) = true := by
  rw [validationErrors_isEmpty] at he
  simp only [Bool.and_eq_true, Bool.not_eq_true'] at he
  obtain ⟨⟨⟨⟨⟨h1, h2⟩, h3⟩, h4⟩, h5⟩, h6⟩ := he
  rw [schemaErrors_communityDataOf env b h1 h2 h3 h4 h5 h6] at hs
  simp only [isEmpty_append_eq, enumError_isEmpty, Bool.and_eq_true] at hs
  simp only [isBlank] at h1 h2 h3 h4 h5 h6
  simp only [wellFormed, communityDataOf, trim_idem, bne, h1, h2, h3, h4, h5, h6, hs.1.1,
    hs.1.2, Bool.not_false, Bool.and_self]

theorem create_preserves_wellFormed (env : CreateEnv) (store : List Community)
    (b : CreateBody) (h : ∀ d ∈ store, wellFormed d = true) :
    ∀ d ∈ (createCommunity env store b).2, wellFormed d = true := by
  rcases create_store_cases env store b with hc | ⟨he, hs, hc⟩
  · rw [hc]
    exact h
  · rw [hc]
    intro d hd
    rcases List.mem_append.mp hd with hd | hd
    · exact h d hd
    · rw [List.mem_singleton.mp hd]
      exact wellFormed_communityDataOf env b he hs

theorem step_preserves_wellFormed (store : List Community) (r : Request)
    (h : ∀ d ∈ store, wellFormed d = true) : ∀ d ∈ step store r, wellFormed d = true := by
  cases r with
  | listing e q => exact h
  | detail id => exact h
  | featured fault => exact h
  | create env body => exact create_preserves_wellFormed env store body h

theorem run_preserves_wellFormed (requests : List Request) :
    ∀ store : List Community, (∀ d ∈ store, wellFormed d = true) →
      ∀ d ∈ run store requests, wellFormed d = true := by
  induction requests with
  | nil => intro store h; exact h
  | cons r rs ih =>
    intro store h
    exact ih (step store r) (step_preserves_wellFormed store r h)

theorem create_rejects_outside_enum (env : CreateEnv) (store : List Community)
    (b : CreateBody)
    (h : platformEnum.contains (trim (orEmpty b.platform)) = false ∨
      locationModeEnum.contains (trim (orEmpty b.location_mode)) = false) :
    (createCommunity env store b).1.status = 400 ∧
      (createCommunity env store b).1.success = false ∧
      (createCommunity env store b).2 = store := by
  by_cases he : (validationErrors b).isEmpty = true
  · by_cases hu : env.validURL (communityDataOf env b).joining_link = true
    · have hne : (schemaErrors (communityDataOf env b)).isEmpty = false := by
        have he2 := he
        rw [validationErrors_isEmpty] at he2
        simp only [Bool.and_eq_true, Bool.not_eq_true'] at he2
        obtain ⟨⟨⟨⟨⟨h1, h2⟩, h3⟩, h4⟩, h5⟩, h6⟩ := he2
        rw [schemaErrors_communityDataOf env b h1 h2 h3 h4 h5 h6]
        simp only [isEmpty_append_eq, enumError_isEmpty]
        rcases h with h | h <;> rw [h] <;> simp only [Bool.false_and, Bool.and_false]
      simp [createCommunity, he, hu, hne]
    · simp [createCommunity, he, hu]
  · have he2 : (validationErrors b).isEmpty = false := by simpa using he
    rw [createCommunity_of_errors env store b he2]
    exact ⟨rfl, rfl, rfl⟩

/-- C23: when every document of the store has title, description, tech_stack, platform,
location_mode and joining_link non-empty after trimming, platform among the 13 platforms
and location_mode among the 5 modes, the store has the same property after every
sequence of listing, detail, featured and creation requests; and a creation request
with a platform or location_mode outside its enumeration is rejected with status 400
and writes nothing. -/
theorem store_invariant (store : List Community) (h : ∀ d ∈ store, wellFormed d = true) :
    (∀ requests : List Request, ∀ d ∈ run store requests, wellFormed d = true) ∧
    (∀ (env : CreateEnv) (b : CreateBody),
      platformEnum.contains (trim (orEmpty b.platform)) = false ∨
        locationModeEnum.contains (trim (orEmpty b.location_mode)) = false →
      (createCommunity env store b).1.status = 400 ∧
      (createCommunity env store b).1.success = false ∧
      (createCommunity env store b).2 = store) :=
  ⟨fun requests => run_preserves_wellFormed requests store h,
    fun env b hout => create_rejects_outside_enum env store b hout⟩

/-- Witness for C23: the sample store has the property; after a sequence with one
accepted creation and one creation with the platform "MySpace" it holds six documents,
all with the property. -/
theorem store_invariant_witness :
    (run sampleStore sampleRequests).length = 6 ∧
      (∀ d ∈ run sampleStore sampleRequests, wellFormed d = true) ∧
      (createCommunity sampleEnv sampleStore myspaceBody).1.status = 400 :=
  have h := store_invariant sampleStore (by decide)
  ⟨by decide, h.1 sampleRequests, (h.2 sampleEnv myspaceBody (Or.inl (by decide))).1⟩

/-- C24, evaluation at the failing input: the listing, detail and featured routes put
the message of the fault into the response whatever the runtime mode is (they do not
read it), while the creation route in production mode answers "Internal server
error". -/
theorem fault_message_not_redacted :
    featured (some "connection lost") sampleStore =
      { status := 500, success := false, message := some "Server error",
        error := some "connection lost" } ∧
    listing fragmentEngine sampleStore parenSearch =
      .serverError "Invalid regular expression: /(/" ∧
    (detail sampleStore "xyz").status = 500 ∧
    (detail sampleStore "xyz").error = some
      "Cast to ObjectId failed for value \"xyz\" (type string) at path \"_id\" for model \"Community\"" ∧
    productionFaultEnv.production = true ∧
    (createCommunity productionFaultEnv sampleStore goodBody).1 =
      { status := 500, success := false, message := "Server error",
        error := some "Internal server error" } := by decide

theorem leList_total : ∀ a b : List Char, leList a b = true ∨ leList b a = true
  | [], _ => Or.inl rfl
  | _ :: _, [] => Or.inr rfl
  | a :: as, b :: bs => by
    simp only [leList, Bool.or_eq_true, Bool.and_eq_true, decide_eq_true_eq]
    rcases Nat.lt_trichotomy a.toNat b.toNat with h | h | h
    · exact Or.inl (Or.inl h)
    · rcases leList_total as bs with h2 | h2
      · exact Or.inl (Or.inr ⟨h, h2⟩)
      · exact Or.inr (Or.inr ⟨h.symm, h2⟩)
    · exact Or.inr (Or.inl h)

theorem leList_trans : ∀ a b c : List Char,
    leList a b = true → leList b c = true → leList a c = true
  | [], _, _, _, _ => rfl
  | _ :: _, [], _, h, _ => by simp [leList] at h
  | _ :: _, _ :: _, [], _, h => by simp [leList] at h
  | a :: as, b :: bs, c :: cs, h1, h2 => by
    simp only [leList, Bool.or_eq_true, Bool.and_eq_true, decide_eq_true_eq] at h1 h2 ⊢
    rcases h1 with h1 | ⟨e1, h1⟩
    · rcases h2 with h2 | ⟨e2, _⟩
      · exact Or.inl (by omega)
      · exact Or.inl (by omega)
    · rcases h2 with h2 | ⟨e2, h2⟩
      · exact Or.inl (by omega)
      · exact Or.inr ⟨by omega, leList_trans as bs cs h1 h2⟩

theorem featuredOrder_total (a b : Community) : featuredOrder a b ∨ featuredOrder b a := by
  unfold featuredOrder
  rcases lt_trichotomy a.member_count b.member_count with h | h | h
  · exact Or.inr (Or.inl h)
  · rcases leList_total a.activity_level.data b.activity_level.data with h2 | h2
    · exact Or.inr (Or.inr ⟨h.symm, h2⟩)
    · exact Or.inl (Or.inr ⟨h, h2⟩)
  · exact Or.inl (Or.inl h)

theorem featuredOrder_trans (a b c : Community) (h1 : featuredOrder a b)
    (h2 : featuredOrder b c) : featuredOrder a c := by
  unfold featuredOrder at *
  rcases h1 with h1 | ⟨e1, l1⟩
  · rcases h2 with h2 | ⟨e2, _⟩
    · exact Or.inl (by omega)
    · exact Or.inl (by omega)
  · rcases h2 with h2 | ⟨e2, l2⟩
    · exact Or.inl (by omega)
    · exact Or.inr ⟨by omega, leList_trans _ _ _ l2 l1⟩

theorem featuredOrder_member_count (a b : Community) (h : featuredOrder a b) :
    b.member_count ≤ a.member_count := by
  unfold featuredOrder at h
  rcases h with h | ⟨h, _⟩ <;> omega

theorem sorted_featured (store : List Community) :
    (List.insertionSort featuredOrder store).Sorted featuredOrder :=
  @List.sorted_insertionSort _ featuredOrder _ ⟨featuredOrder_total⟩ ⟨featuredOrder_trans⟩
    store

/-- C25: on every store the featured route returns min(6, store size) documents, in the
order of member_count descending and, among equal member counts, activity_level
descending (as the store compares texts); the documents left out, together with the
returned ones, are the store, and none of them has a larger member_count than a
returned document. -/
theorem featured_top_six (store : List Community) :
    (featured none store).status = 200 ∧
    (featured none store).success = true ∧
    (featured none store).data.length = min 6 store.length ∧
    (featured none store).data.Sorted featuredOrder ∧
    ∃ rest : List Community, ((featured none store).data ++ rest).Perm store ∧
      ∀ x ∈ rest, ∀ y ∈ (featured none store).data, x.member_count ≤ y.member_count := by
  have hs := sorted_featured store
  have hperm := List.perm_insertionSort featuredOrder store
  refine ⟨rfl, rfl, ?_, ?_, (List.insertionSort featuredOrder store).drop 6, ?_, ?_⟩
  · show ((List.insertionSort featuredOrder store).take 6).length = _
    rw [List.length_take, hperm.length_eq]
  · show ((List.insertionSort featuredOrder store).take 6).Sorted featuredOrder
    exact List.Pairwise.sublist (List.take_sublist 6 _) hs
  · show ((List.insertionSort featuredOrder store).take 6 ++ _).Perm store
    rw [List.take_append_drop]
    exact hperm
  · intro x hx y hy
    have hy2 : y ∈ (List.insertionSort featuredOrder store).take 6 := hy
    have hsplit : (List.insertionSort featuredOrder store).take 6 ++
        (List.insertionSort featuredOrder store).drop 6 =
          List.insertionSort featuredOrder store := List.take_append_drop 6 _
    have hp : List.Pairwise featuredOrder
        ((List.insertionSort featuredOrder store).take 6 ++
          (List.insertionSort featuredOrder store).drop 6) := by
      rw [hsplit]
      exact hs
    rw [List.pairwise_append] at hp
    exact featuredOrder_member_count y x (hp.2.2 y hy2 x hx)

/-! ## Theorems: the Match Maker and the CORS check -/

/-- C26, evaluation at the failing input: for the selection React and Node.js the
questionnaire sends `tech_stack=React|Node.js`; the listing escapes the bar, so the
pattern is the literal text "React|Node.js", and the communities with tech_stack
"React" and "Node.js" are not listed. The selection of React alone lists the React
community. -/
theorem matchmaker_tech_stack_no_match :
    (matchMakerParams twoStacksForm).tech_stack = some (QueryValue.str "React|Node.js") ∧
    (buildFilter (matchMakerParams twoStacksForm)).tech_stack = some "React\\|Node\\.js" ∧
    docReact.tech_stack ∈ twoStacksForm.techStack ∧
    docNode.tech_stack ∈ twoStacksForm.techStack ∧
    (listing fragmentEngine [docReact, docNode]
      { tech_stack := (matchMakerParams twoStacksForm).tech_stack }).data = [] ∧
    (listing fragmentEngine [docReact, docNode]
      { tech_stack := (matchMakerParams oneStackForm).tech_stack }).data = [docReact] := by
  decide

/-- C27, evaluation at the failing input: for the format "Local/In-person" the
questionnaire sends `location_mode=Local`, which is not a value of the location_mode
enumeration, so that no stored community can have it. -/
theorem matchmaker_location_mode_not_enumerated :
    "Local/In-person" ∈ formats ∧
    (matchMakerParams twoStacksForm).location_mode = some (QueryValue.str "Local") ∧
    locationModeEnum.contains "Local" = false ∧
    (matchMakerParams oneStackForm).location_mode = some (QueryValue.str "Global/Online") ∧
    locationModeEnum.contains "Global/Online" = true := by decide

/-- C28, evaluation at the failing input: in production mode the CORS check accepts the
origin `https://vercel.app.evil.example`, which is not in the allowed list and whose
host ends neither with "vercel.app" nor with "netlify.app"; a request without origin is
accepted, and `http://localhost:9999` is accepted only outside production. -/
theorem cors_accepts_foreign_origin :
    corsAccepts none none true (some foreignOrigin) = true ∧
    (allowedOrigins none none).contains foreignOrigin = false ∧
    hostOf foreignOrigin = "vercel.app.evil.example" ∧
    endsWith (hostOf foreignOrigin) "vercel.app" = false ∧
    endsWith (hostOf foreignOrigin) "netlify.app" = false ∧
    corsAccepts none none true none = true ∧
    corsAccepts none none true (some "http://localhost:9999") = false ∧
    corsAccepts none none false (some "http://localhost:9999") = true := by decide

/-! ## Theorems: the Machine Learning rule and re-classification -/

/-- C29: when none of the React, Node.js, Python, Django and Flask rules matches and
the lowercased title contains "ai" or "ml" anywhere, the label is "Machine Learning",
whatever the original tech_stack is. -/
theorem getTechStack_ai_ml_substring (c : SeedCommunity)
    (hreact : onRecord isReact c = false) (hnode : onRecord isNode c = false)
    (hpython : onRecord isPython c = false) (hdjango : onRecord isDjango c = false)
    (hflask : onRecord isFlask c = false)
    (h : includes (toLowerCase (orEmpty c.title)) "ai" = true ∨
      includes (toLowerCase (orEmpty c.title)) "ml" = true) :
    getTechStack c = "Machine Learning" ∧
    ∀ stack : Option String, getTechStack { c with tech_stack := stack } = "Machine Learning" := by
  have hml : onRecord isMachineLearning c = true := by
    rcases h with h | h
    · simp only [onRecord, isMachineLearning, titleOf, h, Bool.true_or, Bool.or_true]
    · simp only [onRecord, isMachineLearning, titleOf, h, Bool.true_or, Bool.or_true]
  have key : ∀ c2 : SeedCommunity, onRecord isReact c2 = false → onRecord isNode c2 = false →
      onRecord isPython c2 = false → onRecord isDjango c2 = false →
      onRecord isFlask c2 = false → onRecord isMachineLearning c2 = true →
      getTechStack c2 = "Machine Learning" := by
    intro c2 a1 a2 a3 a4 a5 a6
    rw [getTechStack_eq_chain]
    simp [a1, a2, a3, a4, a5, a6]
  exact ⟨key c hreact hnode hpython hdjango hflask hml,
    fun stack => key { c with tech_stack := stack } hreact hnode hpython hdjango hflask hml⟩

set_option maxRecDepth 100000

/-- Witness for C29: the seed record "Tailwind CSS", whose original tech_stack is
"React" and whose title contains "ai" inside "Tailwind". -/
theorem getTechStack_ai_ml_substring_witness :
    tailwindCss.tech_stack = some "React" ∧ getTechStack tailwindCss = "Machine Learning" :=
  ⟨rfl, (getTechStack_ai_ml_substring tailwindCss (by decide) (by decide) (by decide)
    (by decide) (by decide) (Or.inl (by decide))).1⟩

theorem fallback_fixed (x : String) :
    (if popularStacks.contains
          (trim (if popularStacks.contains (trim x) then trim x else orGeneral (trim x)))
      then trim (if popularStacks.contains (trim x) then trim x else orGeneral (trim x))
      else orGeneral
        (trim (if popularStacks.contains (trim x) then trim x else orGeneral (trim x)))) =
      (if popularStacks.contains (trim x) then trim x else orGeneral (trim x)) := by
  by_cases hp : popularStacks.contains (trim x) = true
  · simp only [hp, if_true, trim_idem]
  · by_cases he : trim x = ""
    · have hg : orGeneral (trim x) = "General" := by simp [orGeneral, he]
      simp only [hp, if_false, hg, Bool.false_eq_true]
      decide
    · have hg : orGeneral (trim x) = trim x := by simp [orGeneral, he]
      simp only [hp, if_false, hg, trim_idem, Bool.false_eq_true]

theorem fallbackLabel_mapCommunity (c : SeedCommunity) (h : getTechStack c = fallbackLabel c) :
    fallbackLabel (mapCommunity c) = fallbackLabel c := by
  have h1 : fallbackLabel (mapCommunity c) =
      (if popularStacks.contains (trim (getTechStack c)) then trim (getTechStack c)
        else orGeneral (trim (getTechStack c))) := rfl
  rw [h1, h]
  exact fallback_fixed (orEmpty c.tech_stack)

theorem chain_of_some_rule (c : SeedCommunity) (d₁ d₂ : String)
    (h : noRuleMatches c = false) :
    (if onRecord isReact c then "React"
      else if onRecord isNode c then "Node.js"
      else if onRecord isPython c then
        if onRecord isDjangoInPython c then "Django"
        else if onRecord isFlaskInPython c then "Flask"
        else "Python"
      else if onRecord isDjango c then "Django"
      else if onRecord isFlask c then "Flask"
      else if onRecord isMachineLearning c then "Machine Learning"
      else if onRecord isVue c then "Vue"
      else if onRecord isAngular c then "Angular"
      else d₁) =
    (if onRecord isReact c then "React"
      else if onRecord isNode c then "Node.js"
      else if onRecord isPython c then
        if onRecord isDjangoInPython c then "Django"
        else if onRecord isFlaskInPython c then "Flask"
        else "Python"
      else if onRecord isDjango c then "Django"
      else if onRecord isFlask c then "Flask"
      else if onRecord isMachineLearning c then "Machine Learning"
      else if onRecord isVue c then "Vue"
      else if onRecord isAngular c then "Angular"
      else d₂) := by
  simp only [noRuleMatches] at h
  split_ifs <;> first | rfl | simp_all

/-- C30: re-classification is idempotent: replacing the tech_stack of a record by its
label and classifying again gives the same label, so that mapping an already mapped
record changes nothing. -/
theorem getTechStack_idempotent (c : SeedCommunity) :
    getTechStack { c with tech_stack := some (getTechStack c) } = getTechStack c ∧
    mapCommunity (mapCommunity c) = mapCommunity c ∧
    ∀ records : List SeedCommunity,
      (records.map mapCommunity).map mapCommunity = records.map mapCommunity := by
  have key : ∀ r : SeedCommunity, getTechStack (mapCommunity r) = getTechStack r := by
    intro r
    by_cases hno : noRuleMatches r = true
    · have h1 := getTechStack_of_noRuleMatches r hno
      have h2 : noRuleMatches (mapCommunity r) = true := hno
      rw [getTechStack_of_noRuleMatches (mapCommunity r) h2, fallbackLabel_mapCommunity r h1,
        ← h1]
    · have hno2 : noRuleMatches r = false := by simpa using hno
      rw [getTechStack_eq_chain (mapCommunity r), getTechStack_eq_chain r]
      exact chain_of_some_rule r _ _ hno2
  have hmap : ∀ r : SeedCommunity, mapCommunity (mapCommunity r) = mapCommunity r := by
    intro r
    show { mapCommunity r with tech_stack := some (getTechStack (mapCommunity r)) } = _
    rw [key r]
    rfl
  refine ⟨key c, hmap c, ?_⟩
  intro records
  rw [List.map_map]
  exact List.map_congr_left (fun r _ => hmap r)

end GetDevComm
